import Mathlib

/-
Verification development for the Kubernetes cluster-orchestration module
(sdcm/cluster_k8s). Python numerics are embedded as exact rationals; Python
integers as ℤ; Python lists and dicts as Lean lists and association lists.
Each definition mirrors one function (or inline block) of the source module.
-/

/-! ## Python numeric primitives -/

/-- Python `int()` applied to an exact rational: truncation toward zero. -/
def pyInt (q : ℚ) : ℤ := if 0 ≤ q then ⌊q⌋ else ⌈q⌉

/-- Python integer floor division `//`. -/
def pyFloorDiv (a b : ℤ) : ℤ := a.fdiv b

/-- Python `x or 1` on an integer `x`: `1` exactly when `x` is falsy (zero). -/
def pyOrOne (n : ℤ) : ℤ := if n = 0 then 1 else n

/-- Python `math.ceil` applied to an exact rational. -/
def pyCeil (q : ℚ) : ℤ := ⌈q⌉

/-! ## Resource constants (module-level dicts of cluster_k8s) -/

/-- One entry of the per-container resource dicts: a cpu and a memory amount. -/
structure ContainerResources where
  cpu : ℚ
  memory : ℚ

/-- Resources used by containers deployed by scylla-operator on scylla nodes. -/
def OPERATOR_CONTAINERS_RESOURCES : ContainerResources := ⟨0.05, 0.01⟩

/-- Other common resources deployed on each scylla node. -/
def COMMON_CONTAINERS_RESOURCES : ContainerResources := ⟨0.51, 0.51⟩

/-- Resources of the scylla-manager agent container. -/
def SCYLLA_MANAGER_AGENT_RESOURCES : ContainerResources := ⟨0.2, 0.489⟩

/-! ## Resource-budget computation (`KubernetesCluster.deploy_scylla_cluster`) -/

/-- The cpu budget before tuning and division:
`int(cpu_limit - OPERATOR.cpu * tenants - COMMON.cpu - AGENT.cpu * tenants)`. -/
def cpu_limit_raw (cpu_capacity : ℚ) (tenants : ℕ) : ℤ :=
  pyInt (cpu_capacity
    - OPERATOR_CONTAINERS_RESOURCES.cpu * tenants
    - COMMON_CONTAINERS_RESOURCES.cpu
    - SCYLLA_MANAGER_AGENT_RESOURCES.cpu * tenants)

/-- The cpu budget after the optional performance-tuning reduction:
`new = ceil(cpu_limit / 8) * 7`, adopted only when `new < cpu_limit`. -/
def cpu_limit_tuned (cpu_capacity : ℚ) (tenants : ℕ) (perf_tuning : Bool) : ℤ :=
  let cpu_limit := cpu_limit_raw cpu_capacity tenants
  if perf_tuning then
    let new_cpu_limit := pyCeil ((cpu_limit : ℚ) / 8) * 7
    if new_cpu_limit < cpu_limit then new_cpu_limit else cpu_limit
  else cpu_limit

/-- The per-tenant cpu limit: `cpu_limit // tenants or 1`. -/
def calculated_cpu_limit (cpu_capacity : ℚ) (tenants : ℕ) (perf_tuning : Bool) : ℤ :=
  pyOrOne (pyFloorDiv (cpu_limit_tuned cpu_capacity tenants perf_tuning) tenants)

/-- The per-tenant memory limit: the same subtraction, divided by `tenants`
without flooring. -/
def calculated_memory_limit (memory_capacity : ℚ) (tenants : ℕ) : ℚ :=
  (memory_capacity
    - OPERATOR_CONTAINERS_RESOURCES.memory * tenants
    - COMMON_CONTAINERS_RESOURCES.memory
    - SCYLLA_MANAGER_AGENT_RESOURCES.memory * tenants) / tenants

/-- The total cpu overhead the budget computation subtracts from the capacity:
`operatorCpu * tenants + commonCpu + agentCpu * tenants`. -/
def cpu_overheads (tenants : ℕ) : ℚ :=
  OPERATOR_CONTAINERS_RESOURCES.cpu * tenants
    + COMMON_CONTAINERS_RESOURCES.cpu
    + SCYLLA_MANAGER_AGENT_RESOURCES.cpu * tenants

/-! ## Spec reference definition of the budget (written from the spec text,
for comparison with the source embedding above) -/

/-- Spec reference, subtraction step: `cpu = int(cpuCapacity -
operatorCpu*tenants - commonCpu - agentCpu*tenants)`. -/
def spec_cpu_budget (cpu_capacity : ℚ) (tenants : ℕ) : ℤ :=
  pyInt (cpu_capacity - 0.05 * tenants - 0.51 - 0.2 * tenants)

/-- Spec reference, tuning step: if performance tuning is enabled, replace
`cpu` by `ceil(cpu/8)*7` only when that does not increase the value. -/
def spec_cpu_tuned (cpu_capacity : ℚ) (tenants : ℕ) (perf_tuning : Bool) : ℤ :=
  let cpu := spec_cpu_budget cpu_capacity tenants
  if perf_tuning then
    if pyCeil ((cpu : ℚ) / 8) * 7 ≤ cpu then pyCeil ((cpu : ℚ) / 8) * 7 else cpu
  else cpu

/-- Spec reference, division step: divide by `tenants` with integer division
taking minimum 1. -/
def spec_cpu_limit (cpu_capacity : ℚ) (tenants : ℕ) (perf_tuning : Bool) : ℤ :=
  max (pyFloorDiv (spec_cpu_tuned cpu_capacity tenants perf_tuning) tenants) 1

/-- Spec reference, memory: the same subtraction, divided by `tenants`
without flooring. -/
def spec_memory_limit (memory_capacity : ℚ) (tenants : ℕ) : ℚ :=
  (memory_capacity - 0.01 * tenants - 0.51 - 0.489 * tenants) / tenants

/-! ## Numeric facts about the budget computation -/

theorem pyInt_mono {x y : ℚ} (h : x ≤ y) : pyInt x ≤ pyInt y := by
  unfold pyInt
  by_cases h1 : 0 ≤ x
  · rw [if_pos h1, if_pos (le_trans h1 h)]
    exact Int.floor_mono h
  · rw [if_neg h1]
    by_cases h2 : 0 ≤ y
    · rw [if_pos h2]
      have hx0 : ⌈x⌉ ≤ 0 := Int.ceil_le.mpr (by exact_mod_cast le_of_not_le h1)
      have h0y : (0 : ℤ) ≤ ⌊y⌋ := Int.le_floor.mpr (by exact_mod_cast h2)
      omega
    · rw [if_neg h2]
      exact Int.ceil_mono h

theorem pyInt_le_self {x : ℚ} (h : 0 ≤ x) : (pyInt x : ℚ) ≤ x := by
  unfold pyInt
  rw [if_pos h]
  exact Int.floor_le x

theorem le_pyInt_self {x : ℚ} (h : x < 0) : x ≤ (pyInt x : ℚ) := by
  unfold pyInt
  rw [if_neg (not_le.mpr h)]
  exact Int.le_ceil x

theorem pyInt_nonneg {x : ℚ} (h : 0 ≤ x) : 0 ≤ pyInt x := by
  unfold pyInt
  rw [if_pos h]
  exact Int.le_floor.mpr (by exact_mod_cast h)

theorem pyInt_nonpos {x : ℚ} (h : x < 0) : pyInt x ≤ 0 := by
  unfold pyInt
  rw [if_neg (not_le.mpr h)]
  exact Int.ceil_le.mpr (by exact_mod_cast le_of_lt h)

/-- The two-sided characterization of floor division by a positive divisor. -/
theorem pyFloorDiv_bounds (b t : ℤ) (ht : 0 < t) :
    t * pyFloorDiv b t ≤ b ∧ b < t * (pyFloorDiv b t + 1) := by
  have h1 := Int.fmod_add_fdiv b t
  have h2 := Int.fmod_nonneg' b ht
  have h3 := Int.fmod_lt_of_pos b ht
  unfold pyFloorDiv
  constructor <;> nlinarith [h1, h2, h3]

theorem pyFloorDiv_nonneg {b t : ℤ} (hb : 0 ≤ b) (ht : 0 ≤ t) :
    0 ≤ pyFloorDiv b t := Int.fdiv_nonneg hb ht

theorem pyFloorDiv_mono_num {a b t : ℤ} (h : a ≤ b) (ht : 0 < t) :
    pyFloorDiv a t ≤ pyFloorDiv b t := by
  have ha := (pyFloorDiv_bounds a t ht).1
  have hb := (pyFloorDiv_bounds b t ht).2
  have : t * pyFloorDiv a t < t * (pyFloorDiv b t + 1) := by linarith
  have := lt_of_mul_lt_mul_left this (le_of_lt ht)
  omega

theorem pyFloorDiv_anti_den {a t₁ t₂ : ℤ} (ha : 0 ≤ a) (h1 : 0 < t₁) (h12 : t₁ ≤ t₂) :
    pyFloorDiv a t₂ ≤ pyFloorDiv a t₁ := by
  have ht2 : 0 < t₂ := lt_of_lt_of_le h1 h12
  have hq2 : 0 ≤ pyFloorDiv a t₂ := pyFloorDiv_nonneg ha (le_of_lt ht2)
  have hb2 := (pyFloorDiv_bounds a t₂ ht2).1
  have hb1 := (pyFloorDiv_bounds a t₁ h1).2
  have step : t₁ * pyFloorDiv a t₂ ≤ t₂ * pyFloorDiv a t₂ :=
    mul_le_mul_of_nonneg_right h12 hq2
  have : t₁ * pyFloorDiv a t₂ < t₁ * (pyFloorDiv a t₁ + 1) := by linarith
  have := lt_of_mul_lt_mul_left this (le_of_lt h1)
  omega

theorem cpu_limit_tuned_false (C : ℚ) (t : ℕ) :
    cpu_limit_tuned C t false = cpu_limit_raw C t := rfl

theorem cpu_limit_tuned_true (C : ℚ) (t : ℕ) :
    cpu_limit_tuned C t true =
      if pyCeil ((cpu_limit_raw C t : ℚ) / 8) * 7 < cpu_limit_raw C t then
        pyCeil ((cpu_limit_raw C t : ℚ) / 8) * 7
      else cpu_limit_raw C t := rfl

/-- The tuning step never raises the budget. -/
theorem cpu_limit_tuned_le (C : ℚ) (t : ℕ) (p : Bool) :
    cpu_limit_tuned C t p ≤ cpu_limit_raw C t := by
  cases p
  · rw [cpu_limit_tuned_false]
  · rw [cpu_limit_tuned_true]
    split_ifs with h
    · exact le_of_lt h
    · exact le_refl _

/-- The subtraction step is antitone in the tenant count. -/
theorem cpu_limit_raw_anti (C : ℚ) {t₁ t₂ : ℕ} (h : t₁ ≤ t₂) :
    cpu_limit_raw C t₂ ≤ cpu_limit_raw C t₁ := by
  apply pyInt_mono
  have hc : (t₁ : ℚ) ≤ (t₂ : ℚ) := by exact_mod_cast h
  unfold OPERATOR_CONTAINERS_RESOURCES COMMON_CONTAINERS_RESOURCES
    SCYLLA_MANAGER_AGENT_RESOURCES
  simp only
  linarith

/-- The ceiling-by-8 expression is monotone. -/
theorem pyCeil_div8_mono {c c2 : ℤ} (h : c ≤ c2) :
    pyCeil ((c : ℚ) / 8) ≤ pyCeil ((c2 : ℚ) / 8) := by
  apply Int.ceil_mono
  have hc : (c : ℚ) ≤ (c2 : ℚ) := by exact_mod_cast h
  linarith

/-- The tuning step is monotone in the incoming budget. -/
theorem cpu_limit_tuned_mono (C : ℚ) (p : Bool) {t₁ t₂ : ℕ} (h : t₁ ≤ t₂) :
    cpu_limit_tuned C t₂ p ≤ cpu_limit_tuned C t₁ p := by
  have hraw : cpu_limit_raw C t₂ ≤ cpu_limit_raw C t₁ := cpu_limit_raw_anti C h
  cases p
  · rw [cpu_limit_tuned_false, cpu_limit_tuned_false]
    exact hraw
  · rw [cpu_limit_tuned_true, cpu_limit_tuned_true]
    have hceil : pyCeil ((cpu_limit_raw C t₂ : ℚ) / 8) * 7
        ≤ pyCeil ((cpu_limit_raw C t₁ : ℚ) / 8) * 7 := by
      have := pyCeil_div8_mono hraw
      linarith
    split_ifs with h1 h2 h2
    · exact hceil
    · exact le_of_lt (lt_of_lt_of_le h1 hraw)
    · exact le_trans (le_of_not_lt h1) hceil
    · exact hraw

/-- For a nonpositive budget the tuning step is the identity:
`ceil(c/8)*7` never undercuts a nonpositive `c`. -/
theorem cpu_limit_tuned_of_nonpos {C : ℚ} {t : ℕ} (p : Bool)
    (h : cpu_limit_raw C t ≤ 0) : cpu_limit_tuned C t p = cpu_limit_raw C t := by
  cases p
  · rw [cpu_limit_tuned_false]
  · rw [cpu_limit_tuned_true]
    set c := cpu_limit_raw C t with hc
    have h8 : c ≤ 8 * pyCeil ((c : ℚ) / 8) := by
      have := Int.le_ceil ((c : ℚ) / 8)
      have h2 : (c : ℚ) ≤ 8 * (pyCeil ((c : ℚ) / 8) : ℚ) := by
        unfold pyCeil
        linarith
      exact_mod_cast h2
    rw [if_neg (by omega)]

/-- For a positive budget the tuning step stays positive. -/
theorem cpu_limit_tuned_pos {C : ℚ} {t : ℕ} (p : Bool)
    (h : 1 ≤ cpu_limit_raw C t) : 1 ≤ cpu_limit_tuned C t p := by
  cases p
  · rw [cpu_limit_tuned_false]
    exact h
  · rw [cpu_limit_tuned_true]
    set c := cpu_limit_raw C t with hc
    have hm : 1 ≤ pyCeil ((c : ℚ) / 8) := by
      unfold pyCeil
      apply Int.le_ceil_iff.mpr
      push_cast
      have : (1 : ℚ) ≤ (c : ℚ) := by exact_mod_cast h
      linarith
    split_ifs with h1
    · omega
    · exact h

/-- With nonnegative capacity and at least one tenant, the floored budget
quotient never drops below `-1`. -/
theorem budget_quot_ge_neg_one {C : ℚ} {t : ℕ} (p : Bool) (hC : 0 ≤ C) (ht : 1 ≤ t) :
    -1 ≤ pyFloorDiv (cpu_limit_tuned C t p) t := by
  have htz : (0 : ℤ) < (t : ℤ) := by exact_mod_cast ht
  by_cases hb : 0 ≤ cpu_limit_tuned C t p
  · exact le_trans (by norm_num) (pyFloorDiv_nonneg hb (le_of_lt htz))
  · push_neg at hb
    have hcneg : cpu_limit_raw C t ≤ 0 := by
      by_contra hcpos
      push_neg at hcpos
      have := cpu_limit_tuned_pos p hcpos
      omega
    have hbc : cpu_limit_tuned C t p = cpu_limit_raw C t :=
      cpu_limit_tuned_of_nonpos p hcneg
    set x : ℚ := C - OPERATOR_CONTAINERS_RESOURCES.cpu * t
      - COMMON_CONTAINERS_RESOURCES.cpu - SCYLLA_MANAGER_AGENT_RESOURCES.cpu * t with hxdef
    have hxneg : x < 0 := by
      by_contra hx
      push_neg at hx
      have := pyInt_nonneg hx
      have : cpu_limit_raw C t = pyInt x := rfl
      omega
    have hxlb : -(t : ℚ) < x := by
      have htq : (1 : ℚ) ≤ (t : ℚ) := by exact_mod_cast ht
      rw [hxdef]
      unfold OPERATOR_CONTAINERS_RESOURCES COMMON_CONTAINERS_RESOURCES
        SCYLLA_MANAGER_AGENT_RESOURCES
      simp only
      linarith
    have hcx : x ≤ (cpu_limit_raw C t : ℚ) := le_pyInt_self hxneg
    have hclb : -(t : ℤ) < cpu_limit_raw C t := by
      have : -(t : ℚ) < (cpu_limit_raw C t : ℚ) := lt_of_lt_of_le hxlb hcx
      exact_mod_cast this
    rw [hbc]
    have hbd := (pyFloorDiv_bounds (cpu_limit_raw C t) t htz).2
    by_contra hq
    push_neg at hq
    have hq2 : pyFloorDiv (cpu_limit_raw C t) t + 1 ≤ -1 := by omega
    have hstep : (t : ℤ) * (pyFloorDiv (cpu_limit_raw C t) t + 1) ≤ (t : ℤ) * (-1) :=
      mul_le_mul_of_nonneg_left hq2 (le_of_lt htz)
    have : cpu_limit_raw C t < -(t : ℤ) := by linarith
    omega

/-- Concrete raw budget: capacity 8, eight tenants gives `int(5.49) = 5`. -/
theorem cpu_limit_raw_8_8 : cpu_limit_raw 8 8 = 5 := by
  unfold cpu_limit_raw OPERATOR_CONTAINERS_RESOURCES COMMON_CONTAINERS_RESOURCES
    SCYLLA_MANAGER_AGENT_RESOURCES pyInt
  simp only
  rw [if_pos (by norm_num)]
  rw [Int.floor_eq_iff]
  constructor
  all_goals norm_num

/-- Concrete raw budget: capacity 8, two tenants gives `int(6.99) = 6`. -/
theorem cpu_limit_raw_8_2 : cpu_limit_raw 8 2 = 6 := by
  unfold cpu_limit_raw OPERATOR_CONTAINERS_RESOURCES COMMON_CONTAINERS_RESOURCES
    SCYLLA_MANAGER_AGENT_RESOURCES pyInt
  simp only
  rw [if_pos (by norm_num)]
  rw [Int.floor_eq_iff]
  constructor
  all_goals norm_num

/-- Concrete raw budget: capacity 1 with 8 tenants gives `int(-1.51) = -1`. -/
theorem cpu_limit_raw_1_8 : cpu_limit_raw 1 8 = -1 := by
  unfold cpu_limit_raw OPERATOR_CONTAINERS_RESOURCES COMMON_CONTAINERS_RESOURCES
    SCYLLA_MANAGER_AGENT_RESOURCES pyInt
  simp only
  rw [if_neg (by norm_num)]
  rw [Int.ceil_eq_iff]
  constructor
  all_goals norm_num

/-- With capacity 8 and 8 tenants the per-tenant limit is the clamp value 1. -/
theorem cpu_limit_example_8_8 : calculated_cpu_limit 8 8 false = 1 := by
  unfold calculated_cpu_limit
  rw [cpu_limit_tuned_false, cpu_limit_raw_8_8]
  decide

/-- Capacity 8, two tenants, no tuning gives a per-tenant limit of 3. -/
theorem cpu_limit_example_8_2 : calculated_cpu_limit 8 2 false = 3 := by
  unfold calculated_cpu_limit
  rw [cpu_limit_tuned_false, cpu_limit_raw_8_2]
  decide

/-- The per-tenant cpu limit is antitone in the tenant count, for any
nonnegative pool capacity and fixed tuning flag. -/
theorem calculated_cpu_limit_anti (C : ℚ) (p : Bool) {t₁ t₂ : ℕ}
    (hC : 0 ≤ C) (h1 : 1 ≤ t₁) (h12 : t₁ ≤ t₂) :
    calculated_cpu_limit C t₂ p ≤ calculated_cpu_limit C t₁ p := by
  have h2 : 1 ≤ t₂ := le_trans h1 h12
  have ht1 : (0 : ℤ) < (t₁ : ℤ) := by exact_mod_cast h1
  have ht2 : (0 : ℤ) < (t₂ : ℤ) := by exact_mod_cast h2
  have ht12 : (t₁ : ℤ) ≤ (t₂ : ℤ) := by exact_mod_cast h12
  have hb : cpu_limit_tuned C t₂ p ≤ cpu_limit_tuned C t₁ p :=
    cpu_limit_tuned_mono C p h12
  have hA1 : -1 ≤ pyFloorDiv (cpu_limit_tuned C t₁ p) t₁ :=
    budget_quot_ge_neg_one p hC h1
  have hA2 : -1 ≤ pyFloorDiv (cpu_limit_tuned C t₂ p) t₂ :=
    budget_quot_ge_neg_one p hC h2
  unfold calculated_cpu_limit
  set b₁ := cpu_limit_tuned C t₁ p with hb1def
  set b₂ := cpu_limit_tuned C t₂ p with hb2def
  set q₁ := pyFloorDiv b₁ (t₁ : ℤ) with hq1def
  set q₂ := pyFloorDiv b₂ (t₂ : ℤ) with hq2def
  have hbd1 := pyFloorDiv_bounds b₁ (t₁ : ℤ) ht1
  have hbd2 := pyFloorDiv_bounds b₂ (t₂ : ℤ) ht2
  rw [← hq1def] at hbd1
  rw [← hq2def] at hbd2
  by_cases hq1z : q₁ = 0
  · -- the first limit is the clamp value 1; show the second never exceeds 1
    have hb1lt : b₁ < (t₁ : ℤ) := by
      have := hbd2.1
      have h1b := hbd1.2
      rw [hq1z] at h1b
      omega
    have hq2le : q₂ ≤ 0 := by
      by_contra hq2pos
      push_neg at hq2pos
      have hmul : (t₂ : ℤ) * 1 ≤ (t₂ : ℤ) * q₂ :=
        mul_le_mul_of_nonneg_left (by omega) (le_of_lt ht2)
      have := hbd2.1
      omega
    unfold pyOrOne
    split_ifs <;> omega
  · by_cases hq1pos : 1 ≤ q₁
    · by_cases hq2pos : 1 ≤ q₂
      · -- both quotients positive: use numerator and divisor monotonicity
        have hb2pos : 0 ≤ b₂ := by
          have hmul : (t₂ : ℤ) * 1 ≤ (t₂ : ℤ) * q₂ :=
            mul_le_mul_of_nonneg_left hq2pos (le_of_lt ht2)
          have := hbd2.1
          omega
        have hb1pos : 0 ≤ b₁ := le_trans hb2pos hb
        have step1 : q₂ ≤ pyFloorDiv b₁ (t₂ : ℤ) := pyFloorDiv_mono_num hb ht2
        have step2 : pyFloorDiv b₁ (t₂ : ℤ) ≤ q₁ :=
          pyFloorDiv_anti_den hb1pos ht1 ht12
        unfold pyOrOne
        split_ifs <;> omega
      · unfold pyOrOne
        split_ifs <;> omega
    · -- the first quotient is exactly -1; show the second is as well
      have hq1neg : q₁ = -1 := by omega
      have hb1neg : b₁ < 0 := by
        by_contra hpos
        push_neg at hpos
        have := pyFloorDiv_nonneg hpos (le_of_lt ht1)
        omega
      have hb2neg : b₂ < 0 := lt_of_le_of_lt hb hb1neg
      have hq2neg : q₂ < 0 := by
        by_contra hq2nn
        push_neg at hq2nn
        have hmul : (t₂ : ℤ) * 0 ≤ (t₂ : ℤ) * q₂ :=
          mul_le_mul_of_nonneg_left hq2nn (le_of_lt ht2)
        have := hbd2.1
        omega
      unfold pyOrOne
      split_ifs <;> omega

/-- When the minimum-1 clamp is not engaged, the tenant count times the
per-tenant limit plus the declared overheads stays within the capacity. -/
theorem calculated_cpu_limit_budget (C : ℚ) (t : ℕ) (p : Bool) (h1 : 1 ≤ t)
    (hq : 1 ≤ pyFloorDiv (cpu_limit_tuned C t p) t) :
    (t : ℚ) * (calculated_cpu_limit C t p : ℚ) + cpu_overheads t ≤ C := by
  have ht : (0 : ℤ) < (t : ℤ) := by exact_mod_cast h1
  have hf : calculated_cpu_limit C t p = pyFloorDiv (cpu_limit_tuned C t p) t := by
    unfold calculated_cpu_limit pyOrOne
    rw [if_neg (by omega)]
  set b := cpu_limit_tuned C t p with hbdef
  set q := pyFloorDiv b (t : ℤ) with hqdef
  have htq : (t : ℤ) * q ≤ b := (pyFloorDiv_bounds b (t : ℤ) ht).1
  have hbc : b ≤ cpu_limit_raw C t := cpu_limit_tuned_le C t p
  have hbpos : 1 ≤ b := by
    have hmul : (t : ℤ) * 1 ≤ (t : ℤ) * q := mul_le_mul_of_nonneg_left hq (le_of_lt ht)
    omega
  have hcpos : 1 ≤ cpu_limit_raw C t := le_trans hbpos hbc
  set x : ℚ := C - OPERATOR_CONTAINERS_RESOURCES.cpu * t
    - COMMON_CONTAINERS_RESOURCES.cpu - SCYLLA_MANAGER_AGENT_RESOURCES.cpu * t with hxdef
  have hxnn : 0 ≤ x := by
    by_contra hx
    push_neg at hx
    have := pyInt_nonpos hx
    have hrx : cpu_limit_raw C t = pyInt x := rfl
    omega
  have hcx : (cpu_limit_raw C t : ℚ) ≤ x := pyInt_le_self hxnn
  rw [hf]
  have hcast : (t : ℚ) * (q : ℚ) ≤ (b : ℚ) := by exact_mod_cast htq
  have hbcq : (b : ℚ) ≤ (cpu_limit_raw C t : ℚ) := by exact_mod_cast hbc
  have hov : cpu_overheads t = C - x := by
    rw [hxdef]
    unfold cpu_overheads OPERATOR_CONTAINERS_RESOURCES COMMON_CONTAINERS_RESOURCES
      SCYLLA_MANAGER_AGENT_RESOURCES
    simp only
    ring
  rw [hov, hqdef, hbdef]
  linarith

/-! ## Source budget versus spec reference (claim C1) -/

theorem spec_cpu_budget_eq (C : ℚ) (t : ℕ) : spec_cpu_budget C t = cpu_limit_raw C t := rfl

/-- The spec tuning step (adopt when not larger) computes the same value as
the source tuning step (adopt when strictly smaller). -/
theorem spec_cpu_tuned_eq (C : ℚ) (t : ℕ) (p : Bool) :
    spec_cpu_tuned C t p = cpu_limit_tuned C t p := by
  cases p
  · rfl
  · rw [cpu_limit_tuned_true]
    show (if pyCeil ((spec_cpu_budget C t : ℚ) / 8) * 7 ≤ spec_cpu_budget C t then
        pyCeil ((spec_cpu_budget C t : ℚ) / 8) * 7 else spec_cpu_budget C t) = _
    rw [spec_cpu_budget_eq]
    rcases lt_trichotomy (pyCeil ((cpu_limit_raw C t : ℚ) / 8) * 7) (cpu_limit_raw C t)
      with h | h | h
    · rw [if_pos (le_of_lt h), if_pos h]
    · rw [if_pos (le_of_eq h), if_neg (by omega), h]
    · rw [if_neg (by omega), if_neg (by omega)]

/-- C1 (amended): the per-tenant budget computed before first deployment
equals the spec reference definition whenever the budget left after
subtraction and tuning is nonnegative (Python `x or 1` agrees with "integer
division taking minimum 1" at every nonnegative quotient); memory always
matches, and the spec example (capacity 8, two tenants, no tuning) gives a
per-tenant cpu limit of 3. -/
theorem C1_budget_matches_spec_reference (C M : ℚ) (t : ℕ) (p : Bool)
    (ht : 1 ≤ t) (hb : 0 ≤ cpu_limit_tuned C t p) :
    calculated_cpu_limit C t p = spec_cpu_limit C t p ∧
    calculated_memory_limit M t = spec_memory_limit M t ∧
    calculated_cpu_limit 8 2 false = 3 := by
  refine ⟨?_, rfl, cpu_limit_example_8_2⟩
  unfold calculated_cpu_limit spec_cpu_limit
  rw [spec_cpu_tuned_eq]
  have htz : (0 : ℤ) < (t : ℤ) := by exact_mod_cast ht
  have hq : 0 ≤ pyFloorDiv (cpu_limit_tuned C t p) t :=
    pyFloorDiv_nonneg hb (le_of_lt htz)
  unfold pyOrOne
  split_ifs with h
  · omega
  · omega

/-- C1 counterexample: with capacity 1 and 8 tenants the source computes a
per-tenant limit of -1 while the spec reference (minimum 1) computes 1, so
the claimed identity fails as stated. -/
theorem C1_counterexample :
    calculated_cpu_limit 1 8 false = -1 ∧ spec_cpu_limit 1 8 false = 1 := by
  constructor
  · unfold calculated_cpu_limit
    rw [cpu_limit_tuned_false, cpu_limit_raw_1_8]
    decide
  · unfold spec_cpu_limit
    rw [spec_cpu_tuned_eq, cpu_limit_tuned_false, cpu_limit_raw_1_8]
    decide

/-- C1 witness: the amended theorem applied at capacity 8, memory 4, two
tenants, no tuning. -/
theorem C1_witness :
    (1 ≤ 2 ∧ 0 ≤ cpu_limit_tuned 8 2 false) ∧
      (calculated_cpu_limit 8 2 false = spec_cpu_limit 8 2 false ∧
       calculated_memory_limit 4 2 = spec_memory_limit 4 2 ∧
       calculated_cpu_limit 8 2 false = 3) := by
  have hb : 0 ≤ cpu_limit_tuned 8 2 false := by
    rw [cpu_limit_tuned_false, cpu_limit_raw_8_2]
    decide
  exact ⟨⟨by norm_num, hb⟩,
    C1_budget_matches_spec_reference 8 4 2 false (by norm_num) hb⟩

/-! ## Monotonicity and budget bound of the per-tenant cpu limit (claim C9) -/

/-- C9 (amended): for every nonnegative capacity the per-tenant cpu limit is
monotonically non-increasing in the tenant count, and whenever the minimum-1
clamp is not engaged (the floored quotient is at least 1) the sum of all
per-tenant limits plus the declared overheads never exceeds the capacity. -/
theorem C9_monotone_and_budget_bound :
    (∀ (C : ℚ) (p : Bool) (t₁ t₂ : ℕ), 0 ≤ C → 1 ≤ t₁ → t₁ ≤ t₂ →
      calculated_cpu_limit C t₂ p ≤ calculated_cpu_limit C t₁ p) ∧
    (∀ (C : ℚ) (t : ℕ) (p : Bool), 1 ≤ t →
      1 ≤ pyFloorDiv (cpu_limit_tuned C t p) t →
      (t : ℚ) * (calculated_cpu_limit C t p : ℚ) + cpu_overheads t ≤ C) :=
  ⟨fun C p _ _ hC h1 h12 => calculated_cpu_limit_anti C p hC h1 h12,
   fun C t p h1 hq => calculated_cpu_limit_budget C t p h1 hq⟩

/-- C9 counterexample: at capacity 8 with 8 tenants the clamp forces a
per-tenant limit of 1 and the total (8 tenants plus overheads 2.51) exceeds
the capacity, refuting the unconditional bound of the claim. -/
theorem C9_counterexample :
    ¬((8 : ℚ) * (calculated_cpu_limit 8 8 false : ℚ) + cpu_overheads 8 ≤ 8) := by
  rw [cpu_limit_example_8_8]
  unfold cpu_overheads OPERATOR_CONTAINERS_RESOURCES COMMON_CONTAINERS_RESOURCES
    SCYLLA_MANAGER_AGENT_RESOURCES
  push_cast
  norm_num

/-- C9 witness: monotonicity applied at capacity 8 between one and two
tenants, and the budget bound applied at capacity 8 with two tenants. -/
theorem C9_witness :
    ((0 : ℚ) ≤ 8 ∧ 1 ≤ 1 ∧ 1 ≤ 2 ∧
      calculated_cpu_limit 8 2 false ≤ calculated_cpu_limit 8 1 false) ∧
    (1 ≤ 2 ∧ 1 ≤ pyFloorDiv (cpu_limit_tuned 8 2 false) 2 ∧
      (2 : ℚ) * (calculated_cpu_limit 8 2 false : ℚ) + cpu_overheads 2 ≤ 8) := by
  have hq : 1 ≤ pyFloorDiv (cpu_limit_tuned 8 2 false) 2 := by
    rw [cpu_limit_tuned_false, cpu_limit_raw_8_2]
    decide
  exact ⟨⟨by norm_num, le_refl 1, by norm_num,
      C9_monotone_and_budget_bound.1 8 false 1 2 (by norm_num) (le_refl 1) (by norm_num)⟩,
    ⟨by norm_num, hq, C9_monotone_and_budget_bound.2 8 2 false (by norm_num) hq⟩⟩

/-! ## Stabilized readiness wait (`KubernetesCluster.kubectl_wait`) -/

/-- The retry loop of `kubectl_wait`. `last` is the remembered
`last_resource_count` (initialized to `-1` before the first attempt); the
list holds the successive condition-met counts reported by the inner
`kubectl wait` invocations, one entry per completed attempt (the bounded
timeout of the wrapper makes the attempt sequence finite, and the fixed
sleeps consume no modelled state). The body returns its result only when the
reported count equals the remembered one; otherwise it stores the new count,
sleeps, and raises to force a retry. The value is the index of the attempt
on which the wrapper returns, or `none` when the attempt budget is exhausted
(the wrapper times out). -/
def kubectl_wait_run (last : ℤ) : List ℕ → Option ℕ
  | [] => none
  | c :: rest =>
    if (c : ℤ) = last then some 0
    else (kubectl_wait_run (c : ℤ) rest).map Nat.succ

/-- A successful attempt reports the same count as the attempt before it
(or, for the very first attempt, the initial `last` value). -/
theorem kubectl_wait_run_spec : ∀ (counts : List ℕ) (last : ℤ) (i : ℕ),
    kubectl_wait_run last counts = some i →
    ∃ c : ℕ, counts[i]? = some c ∧
      ((i = 0 ∧ (c : ℤ) = last) ∨ (0 < i ∧ counts[i - 1]? = some c))
  | [], _, i, h => by simp [kubectl_wait_run] at h
  | c :: rest, last, i, h => by
    rw [kubectl_wait_run] at h
    split_ifs at h with hc
    · cases h
      exact ⟨c, by simp, Or.inl ⟨rfl, hc⟩⟩
    · rcases Option.map_eq_some'.mp h with ⟨j, hj, rfl⟩
      obtain ⟨d, hd, hcase⟩ := kubectl_wait_run_spec rest (c : ℤ) j hj
      rcases hcase with ⟨rfl, hdc⟩ | ⟨hj0, hj1⟩
      · have hdc2 : d = c := by exact_mod_cast hdc
        refine ⟨d, by simpa using hd, Or.inr ⟨by omega, ?_⟩⟩
        simp [hdc2]
      · obtain ⟨k, rfl⟩ : ∃ k, j = k + 1 := ⟨j - 1, by omega⟩
        refine ⟨d, by simpa using hd, Or.inr ⟨by omega, ?_⟩⟩
        simpa using hj1

/-- C7: the stabilized readiness wait never reports success on an attempt
whose condition-met count differs from the count of the immediately
preceding attempt; in particular an attempt whose count strictly increased
over the previous one is never the successful one. -/
theorem C7_wait_success_requires_stable_count (counts : List ℕ) (i : ℕ)
    (h : kubectl_wait_run (-1) counts = some i) :
    counts[i]? = counts[i - 1]? ∧
      ∀ a b : ℕ, counts[i - 1]? = some a → counts[i]? = some b → ¬a < b := by
  obtain ⟨c, hc, hcase⟩ := kubectl_wait_run_spec counts (-1) i h
  rcases hcase with ⟨hi0, hneg⟩ | ⟨hi, hprev⟩
  · exfalso
    omega
  · constructor
    · rw [hc, hprev]
    · intro a b ha hb
      rw [hprev] at ha
      rw [hc] at hb
      cases ha
      cases hb
      omega

/-- C7 witness: the counts 1, 2, 2 succeed exactly on attempt 2, whose
count equals that of attempt 1. -/
theorem C7_witness :
    kubectl_wait_run (-1) [1, 2, 2] = some 2 ∧
      ([1, 2, 2] : List ℕ)[2]? = ([1, 2, 2] : List ℕ)[1]? ∧
      (∀ a b : ℕ, ([1, 2, 2] : List ℕ)[1]? = some a →
        ([1, 2, 2] : List ℕ)[2]? = some b → ¬a < b) := by
  have hrun : kubectl_wait_run (-1) [1, 2, 2] = some 2 := by rfl
  have hthm := C7_wait_success_requires_stable_count [1, 2, 2] 2 hrun
  exact ⟨hrun, hthm.1, hthm.2⟩

/-- C10: because `last_resource_count` starts at -1 and a real count is a
natural number, the wait can never succeed on its very first attempt: each
success happens on attempt `i ≥ 1` and repeats the count of attempt
`i - 1`, so at least two consecutive attempts report the same count. -/
theorem C10_wait_never_succeeds_first_attempt (counts : List ℕ) (i : ℕ)
    (h : kubectl_wait_run (-1) counts = some i) :
    1 ≤ i ∧ counts[i]? = counts[i - 1]? := by
  obtain ⟨c, hc, hcase⟩ := kubectl_wait_run_spec counts (-1) i h
  rcases hcase with ⟨hi0, hneg⟩ | ⟨hi, hprev⟩
  · exfalso
    omega
  · exact ⟨hi, by rw [hc, hprev]⟩

/-- C10 witness: the counts 3, 3 succeed on attempt 1 (the second attempt),
never on attempt 0. -/
theorem C10_witness :
    kubectl_wait_run (-1) [3, 3] = some 1 ∧
      1 ≤ 1 ∧ ([3, 3] : List ℕ)[1]? = ([3, 3] : List ℕ)[0]? := by
  have hrun : kubectl_wait_run (-1) [3, 3] = some 1 := by rfl
  have hthm := C10_wait_never_succeeds_first_attempt [3, 3] 1 hrun
  exact ⟨hrun, hthm.1, hthm.2⟩

/-! ## Config-document store (`KubernetesCluster.scylla_config_map`,
`KubernetesCluster.manage_file_in_scylla_config_map`) -/

/-- A parsed YAML mapping, the result of `yaml.safe_load` on one config
document (an empty list is the empty document that an absent entry parses
to). Serialization is modelled as the identity on parsed documents:
`yaml.safe_dump` is injective on distinct data because `safe_load` inverts
it, which is exactly the property the diff logic relies on. -/
abbrev YamlDoc := List (String × String)

/-- The `data` map of the `scylla-config` ConfigMap resource: one entry per
logical config filename. -/
abbrev ConfigMapData := List (String × YamlDoc)

/-- Dictionary lookup on an association list. -/
def lookupKey {α : Type} (k : String) : List (String × α) → Option α
  | [] => none
  | p :: rest => if p.1 = k then some p.2 else lookupKey k rest

/-- Dictionary assignment: replace the entry in place, or append a new one. -/
def insertKey {α : Type} (k : String) (v : α) : List (String × α) → List (String × α)
  | [] => [(k, v)]
  | p :: rest => if p.1 = k then (k, v) :: rest else p :: insertKey k v rest

/-- Dictionary `pop(k, None)`: drop the entry stored under `k`. -/
def popKey {α : Type} (k : String) : List (String × α) → List (String × α)
  | [] => []
  | p :: rest => if p.1 = k then popKey k rest else p :: popKey k rest

theorem lookup_insertKey_self {α : Type} (k : String) (v : α) :
    ∀ m : List (String × α), lookupKey k (insertKey k v m) = some v
  | [] => by simp [insertKey, lookupKey]
  | p :: rest => by
    rw [insertKey]
    split_ifs with h
    · simp [lookupKey]
    · rw [lookupKey, if_neg h]
      exact lookup_insertKey_self k v rest

theorem lookup_insertKey_other {α : Type} {k k2 : String} (h : k2 ≠ k) (v : α) :
    ∀ m : List (String × α), lookupKey k2 (insertKey k v m) = lookupKey k2 m
  | [] => by
    rw [insertKey, lookupKey, lookupKey, if_neg (fun hk => h hk.symm), lookupKey]
  | p :: rest => by
    rw [insertKey]
    split_ifs with hp
    · rw [lookupKey, lookupKey, if_neg (fun hk => h hk.symm),
        if_neg (show ¬p.1 = k2 by rw [hp]; exact fun hk => h hk.symm)]
    · rw [lookupKey, lookupKey]
      split_ifs with hq
      · rfl
      · exact lookup_insertKey_other h v rest

theorem lookup_popKey_self {α : Type} (k : String) :
    ∀ m : List (String × α), lookupKey k (popKey k m) = none
  | [] => rfl
  | p :: rest => by
    rw [popKey]
    split_ifs with h
    · exact lookup_popKey_self k rest
    · rw [lookupKey, if_neg h]
      exact lookup_popKey_self k rest

theorem lookup_popKey_other {α : Type} {k k2 : String} (h : k2 ≠ k) :
    ∀ m : List (String × α), lookupKey k2 (popKey k m) = lookupKey k2 m
  | [] => rfl
  | p :: rest => by
    rw [popKey]
    split_ifs with hp
    · rw [lookupKey, if_neg (show ¬p.1 = k2 by rw [hp]; exact fun hk => h hk.symm)]
      exact lookup_popKey_other h rest
    · rw [lookupKey, lookupKey]
      split_ifs with hq
      · rfl
      · exact lookup_popKey_other h rest

/-- A platform write issued on completion of the config transaction. -/
inductive ConfigWrite : Type where
  | create (data : ConfigMapData)
  | patch (data : ConfigMapData)
deriving DecidableEq

/-- `KubernetesCluster.scylla_config_map`: read the config resource under the
config lock (an absent resource reads as the empty map), hand the map to the
body, and on completion compare with the original: write back only when the
map changed, patching the resource when it existed and creating it
otherwise. Returns the resource contents after the transaction, paired with
the list of issued writes. -/
def scylla_config_map (resource : Option ConfigMapData)
    (body : ConfigMapData → ConfigMapData) :
    Option ConfigMapData × List ConfigWrite :=
  if resource.getD [] = body (resource.getD []) then (resource, [])
  else if resource.isSome then
    (some (body (resource.getD [])), [ConfigWrite.patch (body (resource.getD []))])
  else
    (some (body (resource.getD [])), [ConfigWrite.create (body (resource.getD []))])

/-- The body of `manage_file_in_scylla_config_map` acting on the read map:
parse the document stored under `filename` (absent parses as empty), let the
caller edit a copy, and on completion, when the document changed, store it
back (dropping the entry when the document became empty) and set
`scylla_restart_required`. Returns the updated map and the new flag. -/
def manage_file_body (filename : String) (edit : YamlDoc → YamlDoc)
    (restart0 : Bool) (config_map : ConfigMapData) : ConfigMapData × Bool :=
  if (lookupKey filename config_map).getD [] = edit ((lookupKey filename config_map).getD [])
  then (config_map, restart0)
  else if edit ((lookupKey filename config_map).getD []) = [] then
    (popKey filename config_map, true)
  else
    (insertKey filename (edit ((lookupKey filename config_map).getD [])) config_map, true)

/-- `KubernetesCluster.manage_file_in_scylla_config_map`: the file-level edit
transaction running inside `scylla_config_map`. Returns the resource
contents after the transaction, the `scylla_restart_required` flag after the
transaction, and the issued writes. -/
def manage_file_in_scylla_config_map (resource : Option ConfigMapData)
    (restart0 : Bool) (filename : String) (edit : YamlDoc → YamlDoc) :
    Option ConfigMapData × Bool × List ConfigWrite :=
  ((scylla_config_map resource fun cm => (manage_file_body filename edit restart0 cm).1).1,
   (manage_file_body filename edit restart0 (resource.getD [])).2,
   (scylla_config_map resource fun cm => (manage_file_body filename edit restart0 cm).1).2)

/-- Editing a document to a changed value always changes the map at its key. -/
theorem manage_file_body_changes (filename : String) (edit : YamlDoc → YamlDoc)
    (restart0 : Bool) (m : ConfigMapData)
    (h : ¬(lookupKey filename m).getD [] = edit ((lookupKey filename m).getD [])) :
    ¬m = (manage_file_body filename edit restart0 m).1 := by
  unfold manage_file_body
  rw [if_neg h]
  split_ifs with hnil
  · intro heq
    replace heq : m = popKey filename m := heq
    have hpop := lookup_popKey_self filename m
    rw [← heq] at hpop
    rcases hlook : lookupKey filename m with _ | v
    · rw [hlook] at h hnil
      simp only [Option.getD_none] at h hnil
      exact h hnil.symm
    · rw [hlook] at hpop
      cases hpop
  · intro heq
    replace heq : m = insertKey filename (edit ((lookupKey filename m).getD [])) m := heq
    have hins := lookup_insertKey_self filename (edit ((lookupKey filename m).getD [])) m
    rw [← heq] at hins
    rcases hlook : lookupKey filename m with _ | v
    · rw [hlook] at hins
      cases hins
    · rw [hlook] at hins h
      simp only [Option.getD_some] at hins h
      exact h (Option.some.inj hins)

/-- The transaction issues no write when the body left the map unchanged. -/
theorem scylla_config_map_unchanged (resource : Option ConfigMapData)
    (body : ConfigMapData → ConfigMapData)
    (h : resource.getD [] = body (resource.getD [])) :
    scylla_config_map resource body = (resource, []) := by
  unfold scylla_config_map
  rw [if_pos h]

/-- The transaction issues exactly one write when the body changed the map:
a patch when the resource existed, a create otherwise. -/
theorem scylla_config_map_changed (resource : Option ConfigMapData)
    (body : ConfigMapData → ConfigMapData)
    (h : ¬resource.getD [] = body (resource.getD [])) :
    scylla_config_map resource body
      = (some (body (resource.getD [])),
         [if resource.isSome then ConfigWrite.patch (body (resource.getD []))
          else ConfigWrite.create (body (resource.getD []))]) := by
  unfold scylla_config_map
  rw [if_neg h]
  rcases resource with _ | r
  · simp
  · simp

/-- C2: each config-document edit transaction is diff-driven. If the document
is unchanged on completion, no platform write is issued, the restart flag
keeps its previous value and the stored resource is untouched; if the
document changed, the flag is set to true, exactly one write is issued (a
create when the resource never existed, else a patch), and the written map
differs from the original only at the edited filename. -/
theorem C2_config_edit_transactional (resource : Option ConfigMapData)
    (restart0 : Bool) (filename : String) (edit : YamlDoc → YamlDoc) :
    ((lookupKey filename (resource.getD [])).getD []
        = edit ((lookupKey filename (resource.getD [])).getD []) →
      manage_file_in_scylla_config_map resource restart0 filename edit
        = (resource, restart0, [])) ∧
    (¬(lookupKey filename (resource.getD [])).getD []
        = edit ((lookupKey filename (resource.getD [])).getD []) →
      ∃ d : ConfigMapData,
        manage_file_in_scylla_config_map resource restart0 filename edit
          = (some d, true,
             [if resource.isSome then ConfigWrite.patch d else ConfigWrite.create d]) ∧
        ∀ k : String, ¬k = filename →
          lookupKey k d = lookupKey k (resource.getD [])) := by
  constructor
  · intro h
    have hbody : manage_file_body filename edit restart0 (resource.getD [])
        = (resource.getD [], restart0) := by
      unfold manage_file_body
      rw [if_pos h]
    have hcond : resource.getD []
        = (fun cm => (manage_file_body filename edit restart0 cm).1) (resource.getD []) := by
      show resource.getD [] = (manage_file_body filename edit restart0 (resource.getD [])).1
      rw [hbody]
    unfold manage_file_in_scylla_config_map
    rw [scylla_config_map_unchanged resource _ hcond, hbody]
  · intro h
    have hne : ¬resource.getD []
        = (fun cm => (manage_file_body filename edit restart0 cm).1) (resource.getD []) :=
      manage_file_body_changes filename edit restart0 (resource.getD []) h
    have hflag : (manage_file_body filename edit restart0 (resource.getD [])).2 = true := by
      unfold manage_file_body
      rw [if_neg h]
      split_ifs
      all_goals rfl
    refine ⟨(manage_file_body filename edit restart0 (resource.getD [])).1, ?_, ?_⟩
    · unfold manage_file_in_scylla_config_map
      rw [scylla_config_map_changed resource _ hne, hflag]
    · intro k hk
      unfold manage_file_body
      rw [if_neg h]
      split_ifs with hnil
      · exact lookup_popKey_other hk (resource.getD [])
      · exact lookup_insertKey_other hk _ (resource.getD [])

/-- C2 witness: on an absent resource, inserting a key into `scylla.yaml`
issues exactly one create, sets the restart flag, and touches only that
entry. -/
theorem C2_witness :
    (¬(lookupKey "scylla.yaml" ((none : Option ConfigMapData).getD [])).getD []
        = insertKey "experimental" "true"
            ((lookupKey "scylla.yaml" ((none : Option ConfigMapData).getD [])).getD [])) ∧
    (∃ d : ConfigMapData,
      manage_file_in_scylla_config_map none false "scylla.yaml"
          (fun doc => insertKey "experimental" "true" doc)
        = (some d, true,
           [if (none : Option ConfigMapData).isSome then ConfigWrite.patch d
            else ConfigWrite.create d]) ∧
      ∀ k : String, ¬k = "scylla.yaml" →
        lookupKey k d = lookupKey k ((none : Option ConfigMapData).getD [])) := by
  have hne : ¬(lookupKey "scylla.yaml" ((none : Option ConfigMapData).getD [])).getD []
      = insertKey "experimental" "true"
          ((lookupKey "scylla.yaml" ((none : Option ConfigMapData).getD [])).getD []) := by
    decide
  exact ⟨hne,
    (C2_config_edit_transactional none false "scylla.yaml"
      (fun doc => insertKey "experimental" "true" doc)).2 hne⟩

/-! ## The `scylla_restart_required` state machine (deploy, config edits,
`ScyllaPodCluster.restart_scylla`) -/

/-- The orchestrator state the restart protocol observes: the config
resource contents and the `scylla_restart_required` flag. -/
structure OrchState where
  resource : Option ConfigMapData
  restartRequired : Bool
deriving DecidableEq

/-- The operations that touch the config document or the restart flag:
a config-document edit transaction setting a file to a document; the
`init_scylla_config_map` call of `deploy_scylla_cluster` (an edit of
`scylla.yaml` folding the configured options in); the deployment-time
`self.scylla_restart_required = False` reset on the following source line;
and `restart_scylla`, which ends by clearing the flag after the rollout. -/
inductive OrchOp : Type where
  | editFile (filename : String) (doc : YamlDoc)
  | initConfig (params : List (String × String))
  | deployReset
  | restartScylla
deriving DecidableEq

/-- The edit `init_scylla_config_map` performs on `scylla.yaml`: set one key
per configured option. -/
def init_config_edit (params : List (String × String)) (doc : YamlDoc) : YamlDoc :=
  params.foldl (fun d kv => insertKey kv.1 kv.2 d) doc

/-- One orchestrator operation applied to the state. -/
def orchStep (s : OrchState) : OrchOp → OrchState
  | OrchOp.editFile filename doc =>
    let r := manage_file_in_scylla_config_map s.resource s.restartRequired filename
      (fun _ => doc)
    ⟨r.1, r.2.1⟩
  | OrchOp.initConfig params =>
    let r := manage_file_in_scylla_config_map s.resource s.restartRequired "scylla.yaml"
      (init_config_edit params)
    ⟨r.1, r.2.1⟩
  | OrchOp.deployReset => ⟨s.resource, false⟩
  | OrchOp.restartScylla => ⟨s.resource, false⟩

/-- The freshly constructed orchestrator: no config resource, flag down. -/
def initialOrchState : OrchState := ⟨none, false⟩

/-- Replay a list of operations from a state. -/
def runOps (s : OrchState) (ops : List OrchOp) : OrchState := ops.foldl orchStep s

/-- Whether an operation, applied in a state, mutates the config document
(the file-level diff of its edit transaction is nonempty). -/
def opMutates (s : OrchState) : OrchOp → Bool
  | OrchOp.editFile filename doc =>
    (manage_file_in_scylla_config_map s.resource false filename (fun _ => doc)).2.1
  | OrchOp.initConfig params =>
    (manage_file_in_scylla_config_map s.resource false "scylla.yaml"
      (init_config_edit params)).2.1
  | OrchOp.deployReset => false
  | OrchOp.restartScylla => false

/-- One update of the ghost mutation-history flag: a restart or the
deployment-time reset opens a fresh epoch, any other operation records
whether it mutated the config document. -/
def ghostUpd (s : OrchState) (m : Bool) : OrchOp → Bool
  | OrchOp.editFile filename doc => m || opMutates s (OrchOp.editFile filename doc)
  | OrchOp.initConfig params => m || opMutates s (OrchOp.initConfig params)
  | OrchOp.deployReset => false
  | OrchOp.restartScylla => false

/-- Ghost history flag: whether the config document has been mutated since
the last restart or deployment-time reset. -/
def mutatedSince (s : OrchState) (m : Bool) : List OrchOp → Bool
  | [] => m
  | op :: rest => mutatedSince (orchStep s op) (ghostUpd s m op) rest

/-- The claim as stated: on every reachable state, a transition of the flag
from true to false happens only by a cluster-wide restart. -/
def c3_claim_statement : Prop :=
  ∀ (ops : List OrchOp) (op : OrchOp),
    (runOps initialOrchState ops).restartRequired = true →
    (orchStep (runOps initialOrchState ops) op).restartRequired = false →
    op = OrchOp.restartScylla

/-- The file-level restart flag disjoins the incoming flag with the diff. -/
theorem manage_file_flag_or (resource : Option ConfigMapData) (restart0 : Bool)
    (filename : String) (edit : YamlDoc → YamlDoc) :
    (manage_file_in_scylla_config_map resource restart0 filename edit).2.1
      = (restart0
          || (manage_file_in_scylla_config_map resource false filename edit).2.1) := by
  show (manage_file_body filename edit restart0 (resource.getD [])).2
    = (restart0 || (manage_file_body filename edit false (resource.getD [])).2)
  unfold manage_file_body
  split_ifs
  · cases restart0
    all_goals rfl
  all_goals cases restart0
  all_goals rfl


/-- A set flag stays set through an edit transaction. -/
theorem manage_file_flag_stays (resource : Option ConfigMapData)
    (filename : String) (edit : YamlDoc → YamlDoc) :
    (manage_file_in_scylla_config_map resource true filename edit).2.1 = true := by
  rw [manage_file_flag_or]
  rfl

/-- The flag tracks the ghost mutation history along any run. -/
theorem runOps_flag_eq_mutatedSince :
    ∀ (ops : List OrchOp) (s : OrchState) (m : Bool),
      s.restartRequired = m → (runOps s ops).restartRequired = mutatedSince s m ops
  | [], _, _, h => h
  | op :: rest, s, m, h => by
    have hstep : runOps s (op :: rest) = runOps (orchStep s op) rest := rfl
    rw [hstep, mutatedSince]
    apply runOps_flag_eq_mutatedSince rest
    cases op with
    | editFile filename doc =>
      show (manage_file_in_scylla_config_map s.resource s.restartRequired filename
        (fun _ => doc)).2.1 = ghostUpd s m (OrchOp.editFile filename doc)
      rw [manage_file_flag_or, h]
      rfl
    | initConfig params =>
      show (manage_file_in_scylla_config_map s.resource s.restartRequired "scylla.yaml"
        (init_config_edit params)).2.1 = ghostUpd s m (OrchOp.initConfig params)
      rw [manage_file_flag_or, h]
      rfl
    | deployReset => rfl
    | restartScylla => rfl

/-- C3 (amended): the restart flag equals the ghost flag "config document
mutated since the last restart or deployment-time reset"; it drops from true
to false only on a restart or on the deployment-time reset; it rises from
false to true only on an operation that mutates the config document; and it
is false immediately after a restart completes. -/
theorem C3_restart_flag_state_machine :
    (∀ ops : List OrchOp,
      (runOps initialOrchState ops).restartRequired
        = mutatedSince initialOrchState false ops) ∧
    (∀ (s : OrchState) (op : OrchOp),
      s.restartRequired = true → (orchStep s op).restartRequired = false →
      op = OrchOp.restartScylla ∨ op = OrchOp.deployReset) ∧
    (∀ (s : OrchState) (op : OrchOp),
      s.restartRequired = false → (orchStep s op).restartRequired = true →
      opMutates s op = true) ∧
    (∀ s : OrchState, (orchStep s OrchOp.restartScylla).restartRequired = false) := by
  refine ⟨fun ops => runOps_flag_eq_mutatedSince ops initialOrchState false rfl,
    ?_, ?_, fun s => rfl⟩
  · intro s op h1 h2
    cases op with
    | editFile filename doc =>
      exfalso
      have h2b : (manage_file_in_scylla_config_map s.resource s.restartRequired filename
          (fun _ => doc)).2.1 = false := h2
      rw [h1, manage_file_flag_stays] at h2b
      cases h2b
    | initConfig params =>
      exfalso
      have h2b : (manage_file_in_scylla_config_map s.resource s.restartRequired
          "scylla.yaml" (init_config_edit params)).2.1 = false := h2
      rw [h1, manage_file_flag_stays] at h2b
      cases h2b
    | deployReset => exact Or.inr rfl
    | restartScylla => exact Or.inl rfl
  · intro s op h1 h2
    cases op with
    | editFile filename doc =>
      have h2b : (manage_file_in_scylla_config_map s.resource s.restartRequired filename
          (fun _ => doc)).2.1 = true := h2
      rw [h1] at h2b
      exact h2b
    | initConfig params =>
      have h2b : (manage_file_in_scylla_config_map s.resource s.restartRequired
          "scylla.yaml" (init_config_edit params)).2.1 = true := h2
      rw [h1] at h2b
      exact h2b
    | deployReset => cases h2
    | restartScylla => cases h2

/-- C3 counterexample: the deployment flow itself mutates `scylla.yaml`
through `init_scylla_config_map` (raising the flag) and then clears the flag
on the next source line without any restart, so a true-to-false transition
of the flag is not exclusively caused by a restart. -/
theorem C3_counterexample : ¬c3_claim_statement := by
  intro hcl
  have h := hcl [OrchOp.initConfig [("experimental", "true")]] OrchOp.deployReset
    (by decide) (by decide)
  cases h

/-- C3 witness: the amended state machine evaluated on the deployment trace
and on concrete transitions. -/
theorem C3_witness :
    ((runOps initialOrchState
        [OrchOp.initConfig [("experimental", "true")], OrchOp.deployReset]).restartRequired
      = mutatedSince initialOrchState false
          [OrchOp.initConfig [("experimental", "true")], OrchOp.deployReset]) ∧
    ((⟨none, true⟩ : OrchState).restartRequired = true ∧
      (orchStep ⟨none, true⟩ OrchOp.deployReset).restartRequired = false ∧
      (OrchOp.deployReset = OrchOp.restartScylla ∨
        OrchOp.deployReset = OrchOp.deployReset)) ∧
    ((⟨none, false⟩ : OrchState).restartRequired = false ∧
      (orchStep ⟨none, false⟩
        (OrchOp.editFile "scylla.yaml" [("a", "b")])).restartRequired = true ∧
      opMutates ⟨none, false⟩ (OrchOp.editFile "scylla.yaml" [("a", "b")]) = true) ∧
    (orchStep ⟨none, true⟩ OrchOp.restartScylla).restartRequired = false := by
  refine ⟨C3_restart_flag_state_machine.1 _, ⟨rfl, rfl, ?_⟩, ⟨rfl, by decide, ?_⟩,
    C3_restart_flag_state_machine.2.2.2 ⟨none, true⟩⟩
  · exact C3_restart_flag_state_machine.2.1 ⟨none, true⟩ OrchOp.deployReset rfl rfl
  · exact C3_restart_flag_state_machine.2.2.1 ⟨none, false⟩
      (OrchOp.editFile "scylla.yaml" [("a", "b")]) rfl (by decide)

/-! ## Pod groups and the Scylla cluster data model
(`PodCluster.add_nodes`, `ScyllaPodCluster.add_nodes`,
`ScyllaPodCluster.decommission` and helpers) -/

/-- A registered cluster member (one pod handle): pod name, rack, ordinal
index assigned at registration. -/
structure Member where
  name : String
  rack : ℕ
  node_index : ℕ
deriving DecidableEq

/-- A rack of the declared ScyllaCluster spec: its name and declared member
count (the actual pod count may lag behind it). -/
structure ScyllaRack where
  name : String
  members : ℕ
deriving DecidableEq

/-- One pod as enumerated from the platform: its name and whether its
container statuses include this group's container. -/
structure Pod where
  name : String
  has_container : Bool
deriving DecidableEq

/-- An external platform action issued while scaling or decommissioning. -/
inductive ClusterAction : Type where
  | waitPodsReadiness (pods_to_wait total_pods : ℕ)
  | replaceRackMembers (rack members : ℕ)
  | waitPodDelete (pod : String) (timeout_minutes : ℕ)
deriving DecidableEq

/-- `BasePodContainer.pod_terminate_timeout` (minutes). -/
def pod_terminate_timeout : ℕ := 5

/-- The registration loop of `PodCluster.add_nodes`: walk the enumerated
pods, skip pods lacking this group's container and pods already registered
under the same name (the check runs against the list as it grows), and
register each remaining pod as a new member whose index is the member count
at registration time. Returns the newly created members in order. -/
def register_new_nodes (nodes : List Member) (rack : ℕ) : List Pod → List Member
  | [] => []
  | pod :: rest =>
    if pod.has_container = false then register_new_nodes nodes rack rest
    else if pod.name ∈ nodes.map Member.name then register_new_nodes nodes rack rest
    else
      ⟨pod.name, rack, nodes.length⟩ ::
        register_new_nodes (nodes ++ [⟨pod.name, rack, nodes.length⟩]) rack rest

/-- The outcome of `PodCluster.add_nodes`: the member list after the call
(partial registrations persist even when the call raises), the returned new
members (`none` models the `RuntimeError` raised on a partial
registration), and the issued platform actions. -/
structure AddNodesResult where
  nodes : List Member
  returned : Option (List Member)
  actions : List ClusterAction
deriving DecidableEq

/-- `PodCluster.add_nodes`: one readiness wait over all currently-expected
pods (existing plus `count`), then the registration loop over the pods the
platform enumerates, then a `RuntimeError` when the number of newly
registered members differs from `count`. -/
def podcluster_add_nodes (nodes : List Member) (count rack : ℕ)
    (pods : List Pod) : AddNodesResult :=
  let new_nodes := register_new_nodes nodes rack pods
  { nodes := nodes ++ new_nodes
    returned := if new_nodes.length = count then some new_nodes else none
    actions := [ClusterAction.waitPodsReadiness count (nodes.length + count)] }

/-- The Scylla pod group: declared racks plus registered members, and the
names of terminated members (`dead_nodes_list`). -/
structure DbCluster where
  racks : List ScyllaRack
  nodes : List Member
  dead_nodes : List String
deriving DecidableEq

/-- Modelled from the spec: `BaseScyllaCluster.get_rack_nodes` is not under
src (only its callers are); per the spec a rack is the subset of the group's
members sharing that placement, in member order. -/
def get_rack_nodes (c : DbCluster) (rack : ℕ) : List Member :=
  c.nodes.filter (fun n => n.rack == rack)

/-- `replace_scylla_cluster_value` on `/spec/datacenter/racks/i/members`:
set the declared member count of rack `i`. -/
def set_rack_members : List ScyllaRack → ℕ → ℕ → List ScyllaRack
  | [], _, _ => []
  | r :: rest, 0, v => ⟨r.name, v⟩ :: rest
  | r :: rest, i + 1, v => r :: set_rack_members rest i v

/-- `ScyllaPodCluster._create_k8s_rack_if_not_exists`: when rack `rack` is
absent from the declared spec, clone rack 0 with zero members and the
suffixed name and append it (the head lookup cannot fail in practice: the
cluster is created with rack 0 present). -/
def create_k8s_rack_if_not_exists (c : DbCluster) (rack : ℕ) : DbCluster :=
  if rack < c.racks.length then c
  else
    match c.racks.head? with
    | none => c
    | some r0 =>
      ⟨c.racks ++ [⟨r0.name ++ "-" ++ toString rack, 0⟩], c.nodes, c.dead_nodes⟩

/-- `ScyllaPodCluster._delete_k8s_rack`: drop the rack from the declared
spec unless it is the only rack. -/
def delete_k8s_rack (c : DbCluster) (rack : ℕ) : DbCluster :=
  if c.racks.length = 1 then c
  else ⟨c.racks.eraseIdx rack, c.nodes, c.dead_nodes⟩

/-- Python `list.remove`: drop the first occurrence. -/
def remove_first_node (node : Member) : List Member → List Member
  | [] => []
  | n :: rest => if n = node then rest else n :: remove_first_node node rest

/-- `ScyllaPodCluster.terminate_node`: record the member among the dead
nodes (unless already recorded) and drop it from the member list. -/
def terminate_node (c : DbCluster) (node : Member) : DbCluster :=
  ⟨c.racks,
   remove_first_node node c.nodes,
   if node.name ∈ c.dead_nodes then c.dead_nodes else c.dead_nodes ++ [node.name]⟩

/-- `ScyllaPodCluster.add_nodes`: ensure the rack exists in the declared
spec, set its declared member count to the actual rack member count plus
`count`, then defer to the PodCluster add protocol. -/
def scylla_add_nodes (c : DbCluster) (count rack : ℕ) (pods : List Pod) :
    DbCluster × Option (List Member) × List ClusterAction :=
  let c1 := create_k8s_rack_if_not_exists c rack
  let current_members := (get_rack_nodes c1 rack).length
  let r := podcluster_add_nodes c1.nodes count rack pods
  (⟨set_rack_members c1.racks rack (current_members + count), r.nodes, c1.dead_nodes⟩,
   r.returned,
   ClusterAction.replaceRackMembers rack (current_members + count) :: r.actions)

/-- `ScyllaPodCluster.decommission`: only the last member of its rack may be
withdrawn (`assert rack_nodes[-1] == node` raises before any mutation
otherwise); then the rack's declared member count is set to the actual
count minus one, the specific pod's deletion is awaited under the bounded
terminate timeout, the member is terminated locally, and a rack whose
actual count was one is dropped from the spec unless it is the only rack. -/
def decommission (c : DbCluster) (node : Member) :
    Option (DbCluster × List ClusterAction) :=
  if (get_rack_nodes c node.rack).getLast? = some node then
    let current_members := (get_rack_nodes c node.rack).length
    let c1 : DbCluster :=
      ⟨set_rack_members c.racks node.rack (current_members - 1), c.nodes, c.dead_nodes⟩
    let c2 := terminate_node c1 node
    let c3 := if current_members = 1 then delete_k8s_rack c2 node.rack else c2
    some (c3,
      [ClusterAction.replaceRackMembers node.rack (current_members - 1),
       ClusterAction.waitPodDelete node.name pod_terminate_timeout])
  else none

/-- The data model after a decommission call; the failing assert leaves the
state untouched. -/
def decommission_state (c : DbCluster) (node : Member) : DbCluster :=
  match decommission c node with
  | some r => r.1
  | none => c

/-- The indices of newly registered members start at the incoming member
count and increase by one per registration. -/
theorem register_map_index :
    ∀ (pods : List Pod) (nodes : List Member) (rack : ℕ),
      (register_new_nodes nodes rack pods).map Member.node_index
        = List.range' nodes.length (register_new_nodes nodes rack pods).length
  | [], _, _ => rfl
  | pod :: rest, nodes, rack => by
    rw [register_new_nodes]
    split_ifs with h1 h2
    · exact register_map_index rest nodes rack
    · exact register_map_index rest nodes rack
    · rw [List.map_cons, List.length_cons, List.range'_succ]
      have ih := register_map_index rest
        (nodes ++ [⟨pod.name, rack, nodes.length⟩]) rack
      rw [List.length_append, List.length_singleton] at ih
      rw [ih]

/-- Registration preserves distinctness of member names. -/
theorem register_names_nodup :
    ∀ (pods : List Pod) (nodes : List Member) (rack : ℕ),
      ((nodes.map Member.name).Nodup) →
      (((nodes ++ register_new_nodes nodes rack pods).map Member.name).Nodup)
  | [], nodes, rack, h => by
    rw [register_new_nodes, List.append_nil]
    exact h
  | pod :: rest, nodes, rack, h => by
    rw [register_new_nodes]
    split_ifs with h1 h2
    · exact register_names_nodup rest nodes rack h
    · exact register_names_nodup rest nodes rack h
    · have hnd : ((nodes ++ [(⟨pod.name, rack, nodes.length⟩ : Member)]).map Member.name).Nodup := by
        rw [List.map_append, List.map_singleton]
        apply List.Nodup.append h (List.nodup_singleton _)
        intro a ha hb
        rw [List.mem_singleton] at hb
        subst hb
        exact h2 ha
      have hrec := register_names_nodup rest
        (nodes ++ [(⟨pod.name, rack, nodes.length⟩ : Member)]) rack hnd
      rw [List.append_cons]
      exact hrec

/-- C5: `add_nodes` issues a single readiness wait over all
currently-expected pods (existing members plus `count`), registers each
enumerated pod of this group's container that is not already tracked as a
new member whose index equals the member count at registration time, and
fails with the partial-registration error exactly when the number of newly
registered members differs from `count`, keeping the partial registrations
and not retrying. -/
theorem C5_add_nodes_single_wait_and_exact_registration
    (nodes : List Member) (count rack : ℕ) (pods : List Pod) :
    (podcluster_add_nodes nodes count rack pods).actions
      = [ClusterAction.waitPodsReadiness count (nodes.length + count)] ∧
    (podcluster_add_nodes nodes count rack pods).nodes
      = nodes ++ register_new_nodes nodes rack pods ∧
    ((register_new_nodes nodes rack pods).map Member.node_index
      = List.range' nodes.length (register_new_nodes nodes rack pods).length) ∧
    ((podcluster_add_nodes nodes count rack pods).returned = none
      ↔ ¬(register_new_nodes nodes rack pods).length = count) ∧
    (∀ new : List Member,
      (podcluster_add_nodes nodes count rack pods).returned = some new →
      new = register_new_nodes nodes rack pods ∧ new.length = count) := by
  refine ⟨rfl, rfl, register_map_index pods nodes rack, ?_, ?_⟩
  · show (if (register_new_nodes nodes rack pods).length = count
        then some (register_new_nodes nodes rack pods) else none) = none ↔ _
    by_cases h : (register_new_nodes nodes rack pods).length = count
    · rw [if_pos h]
      constructor
      · intro hc
        cases hc
      · intro hc
        exact absurd h hc
    · rw [if_neg h]
      exact ⟨fun _ => h, fun _ => rfl⟩
  · intro new hnew
    replace hnew : (if (register_new_nodes nodes rack pods).length = count
        then some (register_new_nodes nodes rack pods) else none) = some new := hnew
    by_cases h : (register_new_nodes nodes rack pods).length = count
    · rw [if_pos h] at hnew
      cases hnew
      exact ⟨rfl, h⟩
    · rw [if_neg h] at hnew
      cases hnew

/-- C5 witness: one tracked member, platform lists the tracked pod, one new
ready pod and one containerless pod; the call waits once for 2 pods,
registers the new pod with index 1 and returns it. -/
theorem C5_witness :
    (podcluster_add_nodes [⟨"pod-a", 0, 0⟩] 1 0
        [⟨"pod-a", true⟩, ⟨"pod-b", true⟩, ⟨"log", false⟩]).actions
      = [ClusterAction.waitPodsReadiness 1 2] ∧
    (podcluster_add_nodes [⟨"pod-a", 0, 0⟩] 1 0
        [⟨"pod-a", true⟩, ⟨"pod-b", true⟩, ⟨"log", false⟩]).returned
      = some [⟨"pod-b", 0, 1⟩] ∧
    ([⟨"pod-b", 0, 1⟩]
        = register_new_nodes [⟨"pod-a", 0, 0⟩] 0
            [⟨"pod-a", true⟩, ⟨"pod-b", true⟩, ⟨"log", false⟩] ∧
      ([⟨"pod-b", 0, 1⟩] : List Member).length = 1) := by
  have hrun : (podcluster_add_nodes [⟨"pod-a", 0, 0⟩] 1 0
      [⟨"pod-a", true⟩, ⟨"pod-b", true⟩, ⟨"log", false⟩]).returned
      = some [⟨"pod-b", 0, 1⟩] := by decide
  exact ⟨(C5_add_nodes_single_wait_and_exact_registration [⟨"pod-a", 0, 0⟩] 1 0
      [⟨"pod-a", true⟩, ⟨"pod-b", true⟩, ⟨"log", false⟩]).1,
    hrun,
    (C5_add_nodes_single_wait_and_exact_registration [⟨"pod-a", 0, 0⟩] 1 0
      [⟨"pod-a", true⟩, ⟨"pod-b", true⟩, ⟨"log", false⟩]).2.2.2.2
      [⟨"pod-b", 0, 1⟩] hrun⟩

theorem set_rack_members_length :
    ∀ (racks : List ScyllaRack) (i v : ℕ),
      (set_rack_members racks i v).length = racks.length
  | [], _, _ => rfl
  | _ :: rest, 0, v => rfl
  | _ :: rest, i + 1, v => by
    rw [set_rack_members, List.length_cons, List.length_cons,
      set_rack_members_length rest i v]

theorem set_rack_members_get :
    ∀ (racks : List ScyllaRack) (i v : ℕ), i < racks.length →
      ((set_rack_members racks i v)[i]?).map ScyllaRack.members = some v
  | [], i, v, h => by cases h
  | r :: rest, 0, v, _ => by
    rw [set_rack_members]
    simp
  | r :: rest, i + 1, v, h => by
    rw [set_rack_members]
    rw [List.getElem?_cons_succ]
    exact set_rack_members_get rest i v (by simpa using h)

theorem create_preserves_nodes (c : DbCluster) (rack : ℕ) :
    (create_k8s_rack_if_not_exists c rack).nodes = c.nodes := by
  unfold create_k8s_rack_if_not_exists
  split_ifs
  · rfl
  · rcases c.racks.head? with _ | r0
    · rfl
    · rfl

theorem get_rack_nodes_create (c : DbCluster) (rack rack2 : ℕ) :
    get_rack_nodes (create_k8s_rack_if_not_exists c rack) rack2
      = get_rack_nodes c rack2 := by
  unfold get_rack_nodes
  rw [create_preserves_nodes]

/-- The member list after `ScyllaPodCluster.add_nodes` is the old list plus
the registered pods. -/
theorem scylla_add_nodes_nodes (c : DbCluster) (count rack : ℕ) (pods : List Pod) :
    (scylla_add_nodes c count rack pods).1.nodes
      = c.nodes ++ register_new_nodes c.nodes rack pods := by
  show (create_k8s_rack_if_not_exists c rack).nodes
      ++ register_new_nodes (create_k8s_rack_if_not_exists c rack).nodes rack pods
    = c.nodes ++ register_new_nodes c.nodes rack pods
  rw [create_preserves_nodes]

/-- A successful `ScyllaPodCluster.add_nodes` registered exactly `count`
new members. -/
theorem scylla_add_nodes_success_length (c : DbCluster) (count rack : ℕ)
    (pods : List Pod)
    (h : (scylla_add_nodes c count rack pods).2.1.isSome = true) :
    (register_new_nodes c.nodes rack pods).length = count := by
  replace h : (if (register_new_nodes (create_k8s_rack_if_not_exists c rack).nodes
      rack pods).length = count
    then some (register_new_nodes (create_k8s_rack_if_not_exists c rack).nodes rack pods)
    else none).isSome = true := h
  rw [create_preserves_nodes] at h
  by_cases hc : (register_new_nodes c.nodes rack pods).length = count
  · exact hc
  · rw [if_neg hc] at h
    cases h

/-- C6 (amended): rack scaling is additive on the actual member count and
duplicate-free. When rack `r` is absent from the declared spec it is first
created as a clone of rack 0 with zero members and the suffixed name, and a
present rack is left alone; `addMembers(count)` then sets the declared
member count of rack `r` to the actual rack member count plus `count`
(which equals an increase by `count` exactly when declared matched actual);
on an empty group a successful `addMembers(n)` makes the declared count `n`
and the member list length `n`; and two successive successful calls with
`n1` and `n2` yield `n1 + n2` additional members with no duplicate member
names. -/
theorem C6_rack_scaling_additive_and_duplicate_free :
    (∀ (c : DbCluster) (r0 : ScyllaRack), c.racks.head? = some r0 →
      (create_k8s_rack_if_not_exists c c.racks.length).racks
        = c.racks ++ [⟨r0.name ++ "-" ++ toString c.racks.length, 0⟩]) ∧
    (∀ (c : DbCluster) (rack : ℕ), rack < c.racks.length →
      create_k8s_rack_if_not_exists c rack = c) ∧
    (∀ (c : DbCluster) (count rack : ℕ) (pods : List Pod),
      rack < (create_k8s_rack_if_not_exists c rack).racks.length →
      (((scylla_add_nodes c count rack pods).1.racks)[rack]?).map ScyllaRack.members
        = some ((get_rack_nodes c rack).length + count)) ∧
    (∀ (c : DbCluster) (n rack : ℕ) (pods : List Pod),
      c.nodes = [] → rack < (create_k8s_rack_if_not_exists c rack).racks.length →
      (scylla_add_nodes c n rack pods).2.1.isSome = true →
      (((scylla_add_nodes c n rack pods).1.racks)[rack]?).map ScyllaRack.members
          = some n ∧
        (scylla_add_nodes c n rack pods).1.nodes.length = n) ∧
    (∀ (c : DbCluster) (n1 n2 rack : ℕ) (pods1 pods2 : List Pod),
      ((c.nodes.map Member.name).Nodup) →
      (scylla_add_nodes c n1 rack pods1).2.1.isSome = true →
      (scylla_add_nodes (scylla_add_nodes c n1 rack pods1).1 n2 rack
          pods2).2.1.isSome = true →
      (scylla_add_nodes (scylla_add_nodes c n1 rack pods1).1 n2 rack
          pods2).1.nodes.length = c.nodes.length + n1 + n2 ∧
      (((scylla_add_nodes (scylla_add_nodes c n1 rack pods1).1 n2 rack
          pods2).1.nodes.map Member.name).Nodup)) := by
  refine ⟨?_, ?_, ?_, ?_, ?_⟩
  · intro c r0 h0
    unfold create_k8s_rack_if_not_exists
    rw [if_neg (by omega), h0]
  · intro c rack h
    unfold create_k8s_rack_if_not_exists
    rw [if_pos h]
  · intro c count rack pods h
    show ((set_rack_members (create_k8s_rack_if_not_exists c rack).racks rack
        ((get_rack_nodes (create_k8s_rack_if_not_exists c rack) rack).length
          + count))[rack]?).map ScyllaRack.members = _
    rw [set_rack_members_get _ rack _ h, get_rack_nodes_create]
  · intro c n rack pods hempty hlt hsucc
    have hreg := scylla_add_nodes_success_length c n rack pods hsucc
    constructor
    · show ((set_rack_members (create_k8s_rack_if_not_exists c rack).racks rack
          ((get_rack_nodes (create_k8s_rack_if_not_exists c rack) rack).length
            + n))[rack]?).map ScyllaRack.members = _
      rw [set_rack_members_get _ rack _ hlt, get_rack_nodes_create]
      unfold get_rack_nodes
      rw [hempty]
      simp
    · rw [scylla_add_nodes_nodes, List.length_append, hreg, hempty]
      simp
  · intro c n1 n2 rack pods1 pods2 hnd h1 h2
    have hreg1 := scylla_add_nodes_success_length c n1 rack pods1 h1
    have hreg2 := scylla_add_nodes_success_length
      (scylla_add_nodes c n1 rack pods1).1 n2 rack pods2 h2
    constructor
    · rw [scylla_add_nodes_nodes, List.length_append, hreg2,
        scylla_add_nodes_nodes, List.length_append, hreg1]
    · rw [scylla_add_nodes_nodes]
      apply register_names_nodup
      rw [scylla_add_nodes_nodes]
      exact register_names_nodup pods1 c.nodes rack hnd

/-- C6 counterexample: with rack 0 declared at 5 members while only 0 pods
actually exist, `addMembers(1)` sets the declared count to 1 (actual plus
one), not to 6 (declared plus one), so "increases the declared members of
rack r by count" fails on a lagging spec. -/
theorem C6_counterexample :
    (scylla_add_nodes ⟨[⟨"rack", 5⟩], [], []⟩ 1 0 [⟨"pod-0", true⟩]).1.racks
      = [⟨"rack", 1⟩] ∧ (1 : ℕ) ≠ 5 + 1 := by
  constructor
  · rfl
  · decide

/-- C6 witness: the amended rack-scaling theorem applied to a fresh
single-rack cluster: rack creation by cloning, declared count 2 after adding
2 members to the empty group, and 2 + 1 distinct members after two calls. -/
theorem C6_witness :
    ((create_k8s_rack_if_not_exists ⟨[⟨"rack", 0⟩], [], []⟩ 1).racks
      = [⟨"rack", 0⟩, ⟨"rack-1", 0⟩]) ∧
    (create_k8s_rack_if_not_exists ⟨[⟨"rack", 0⟩], [], []⟩ 0 = ⟨[⟨"rack", 0⟩], [], []⟩) ∧
    ((((scylla_add_nodes ⟨[⟨"rack", 0⟩], [], []⟩ 2 0
        [⟨"p0", true⟩, ⟨"p1", true⟩]).1.racks)[0]?).map ScyllaRack.members = some 2 ∧
      (scylla_add_nodes ⟨[⟨"rack", 0⟩], [], []⟩ 2 0
        [⟨"p0", true⟩, ⟨"p1", true⟩]).1.nodes.length = 2) ∧
    ((scylla_add_nodes (scylla_add_nodes ⟨[⟨"rack", 0⟩], [], []⟩ 2 0
          [⟨"p0", true⟩, ⟨"p1", true⟩]).1 1 0
          [⟨"p0", true⟩, ⟨"p1", true⟩, ⟨"p2", true⟩]).1.nodes.length = 0 + 2 + 1 ∧
      (((scylla_add_nodes (scylla_add_nodes ⟨[⟨"rack", 0⟩], [], []⟩ 2 0
          [⟨"p0", true⟩, ⟨"p1", true⟩]).1 1 0
          [⟨"p0", true⟩, ⟨"p1", true⟩, ⟨"p2", true⟩]).1.nodes.map Member.name).Nodup)) := by
  refine ⟨?_, C6_rack_scaling_additive_and_duplicate_free.2.1 _ 0 (by decide),
    C6_rack_scaling_additive_and_duplicate_free.2.2.2.1 _ 2 0 _ rfl (by decide) (by decide),
    C6_rack_scaling_additive_and_duplicate_free.2.2.2.2 _ 2 1 0 _ _
      (by decide) (by decide) (by decide)⟩
  exact C6_rack_scaling_additive_and_duplicate_free.1 ⟨[⟨"rack", 0⟩], [], []⟩
    ⟨"rack", 0⟩ rfl

theorem delete_preserves_nodes (c : DbCluster) (rack : ℕ) :
    (delete_k8s_rack c rack).nodes = c.nodes := by
  unfold delete_k8s_rack
  split_ifs
  · rfl
  · rfl

/-- C4 (amended): `decommission` refuses any member that is not the last of
its rack, raising before any mutation, so the data model is unchanged; on
the last member it sets the rack's declared member count to the actual rack
member count minus one (a decrement by one exactly when declared matched
actual), awaits the specific pod's deletion under the bounded terminate
timeout, removes the member locally, and when the rack's actual count was
one the rack is removed from the spec unless it is the only rack. -/
theorem C4_decommission_last_member_only :
    (∀ (c : DbCluster) (node : Member),
      ¬(get_rack_nodes c node.rack).getLast? = some node →
      decommission c node = none ∧ decommission_state c node = c) ∧
    (∀ (c : DbCluster) (node : Member),
      (get_rack_nodes c node.rack).getLast? = some node →
      ∃ d : DbCluster,
        decommission c node
          = some (d,
            [ClusterAction.replaceRackMembers node.rack
               ((get_rack_nodes c node.rack).length - 1),
             ClusterAction.waitPodDelete node.name pod_terminate_timeout]) ∧
        d.nodes = remove_first_node node c.nodes ∧
        (¬(get_rack_nodes c node.rack).length = 1 →
          d.racks = set_rack_members c.racks node.rack
            ((get_rack_nodes c node.rack).length - 1)) ∧
        ((get_rack_nodes c node.rack).length = 1 → ¬c.racks.length = 1 →
          d.racks = (set_rack_members c.racks node.rack 0).eraseIdx node.rack) ∧
        ((get_rack_nodes c node.rack).length = 1 → c.racks.length = 1 →
          d.racks = set_rack_members c.racks node.rack 0)) := by
  constructor
  · intro c node h
    constructor
    · unfold decommission
      rw [if_neg h]
    · unfold decommission_state decommission
      rw [if_neg h]
  · intro c node h
    unfold decommission
    rw [if_pos h]
    refine ⟨_, rfl, ?_, ?_, ?_, ?_⟩
    · by_cases hk : (get_rack_nodes c node.rack).length = 1
      · rw [if_pos hk, delete_preserves_nodes]
        rfl
      · rw [if_neg hk]
        rfl
    · intro hk
      rw [if_neg hk]
      rfl
    · intro hk hr
      rw [if_pos hk]
      show (delete_k8s_rack
        ⟨set_rack_members c.racks node.rack ((get_rack_nodes c node.rack).length - 1),
         remove_first_node node c.nodes,
         if node.name ∈ c.dead_nodes then c.dead_nodes
         else c.dead_nodes ++ [node.name]⟩ node.rack).racks = _
      unfold delete_k8s_rack
      rw [if_neg (by rw [set_rack_members_length]; exact hr)]
      rw [hk]
    · intro hk hr
      rw [if_pos hk]
      show (delete_k8s_rack
        ⟨set_rack_members c.racks node.rack ((get_rack_nodes c node.rack).length - 1),
         remove_first_node node c.nodes,
         if node.name ∈ c.dead_nodes then c.dead_nodes
         else c.dead_nodes ++ [node.name]⟩ node.rack).racks = _
      unfold delete_k8s_rack
      rw [if_pos (by rw [set_rack_members_length]; exact hr)]
      rw [hk]

/-- C4 counterexample: rack 0 is declared at 2 members while only one pod
actually exists; decommissioning that (last) pod sets the declared count to
0 (actual minus one) rather than 1 (declared minus one), and removes the
rack although the declared count never was zero under a pure decrement. -/
theorem C4_counterexample :
    decommission ⟨[⟨"r0", 2⟩, ⟨"r1", 1⟩], [⟨"p0", 0, 0⟩], []⟩ ⟨"p0", 0, 0⟩
      = some (⟨[⟨"r1", 1⟩], [], ["p0"]⟩,
          [ClusterAction.replaceRackMembers 0 0,
           ClusterAction.waitPodDelete "p0" 5]) ∧ ¬(0 : ℕ) = 2 - 1 := by
  constructor
  · rfl
  · decide

/-- C4 witness: on a two-member rack, decommissioning the first member fails
with the data model unchanged; decommissioning the last member updates the
declared count to 1, waits for that pod under the 5-minute bound and removes
the member locally. -/
theorem C4_witness :
    (¬(get_rack_nodes ⟨[⟨"r0", 2⟩], [⟨"p0", 0, 0⟩, ⟨"p1", 0, 1⟩], []⟩
        (⟨"p0", 0, 0⟩ : Member).rack).getLast? = some ⟨"p0", 0, 0⟩) ∧
    (decommission ⟨[⟨"r0", 2⟩], [⟨"p0", 0, 0⟩, ⟨"p1", 0, 1⟩], []⟩ ⟨"p0", 0, 0⟩ = none ∧
      decommission_state ⟨[⟨"r0", 2⟩], [⟨"p0", 0, 0⟩, ⟨"p1", 0, 1⟩], []⟩ ⟨"p0", 0, 0⟩
        = ⟨[⟨"r0", 2⟩], [⟨"p0", 0, 0⟩, ⟨"p1", 0, 1⟩], []⟩) ∧
    ((get_rack_nodes ⟨[⟨"r0", 2⟩], [⟨"p0", 0, 0⟩, ⟨"p1", 0, 1⟩], []⟩
        (⟨"p1", 0, 1⟩ : Member).rack).getLast? = some ⟨"p1", 0, 1⟩) ∧
    (∃ d : DbCluster,
      decommission ⟨[⟨"r0", 2⟩], [⟨"p0", 0, 0⟩, ⟨"p1", 0, 1⟩], []⟩ ⟨"p1", 0, 1⟩
        = some (d,
          [ClusterAction.replaceRackMembers 0 1,
           ClusterAction.waitPodDelete "p1" 5]) ∧
      d.nodes = [⟨"p0", 0, 0⟩] ∧
      d.racks = [⟨"r0", 1⟩]) := by
  have hlast : (get_rack_nodes ⟨[⟨"r0", 2⟩], [⟨"p0", 0, 0⟩, ⟨"p1", 0, 1⟩], []⟩
      (⟨"p1", 0, 1⟩ : Member).rack).getLast? = some ⟨"p1", 0, 1⟩ := by decide
  have hnot : ¬(get_rack_nodes ⟨[⟨"r0", 2⟩], [⟨"p0", 0, 0⟩, ⟨"p1", 0, 1⟩], []⟩
      (⟨"p0", 0, 0⟩ : Member).rack).getLast? = some ⟨"p0", 0, 0⟩ := by decide
  obtain ⟨d, hd, hnodes, hracks, _, _⟩ :=
    C4_decommission_last_member_only.2
      ⟨[⟨"r0", 2⟩], [⟨"p0", 0, 0⟩, ⟨"p1", 0, 1⟩], []⟩ ⟨"p1", 0, 1⟩ hlast
  refine ⟨hnot,
    C4_decommission_last_member_only.1
      ⟨[⟨"r0", 2⟩], [⟨"p0", 0, 0⟩, ⟨"p1", 0, 1⟩], []⟩ ⟨"p0", 0, 0⟩ hnot,
    hlast, d, hd, ?_, ?_⟩
  · rw [hnodes]
    rfl
  · rw [hracks (by decide)]
    rfl

/-! ## Namespace allocation (`PodCluster.generate_namespace`) -/

/-- The candidate namespace name at loop index `i`: the bare template for
`i = 1`, the `-i` suffix for `i > 1` (note `template-1` is never formed). -/
def namespace_candidate (template : String) (i : ℕ) : String :=
  if 1 < i then template ++ "-" ++ toString i else template

/-- The scan loop of `generate_namespace` under the global creation lock:
`i` is the loop index of `range(1, len(namespaces))`, `fuel` the iterations
left. A candidate absent from the listed namespaces is created and returned
(second component `true`); a present candidate returns the bare template
without creating anything when reuse-mode is requested on a single-tenant
deployment, and otherwise the scan continues; an exhausted loop raises. -/
def generate_namespace_go (namespaces : List String) (template : String)
    (reuse : Bool) (tenants : ℕ) : ℕ → ℕ → Except String (String × Bool)
  | _, 0 => Except.error "No available namespace was found"
  | i, fuel + 1 =>
    if namespace_candidate template i ∈ namespaces then
      if reuse ∧ tenants < 2 then Except.ok (template, false)
      else generate_namespace_go namespaces template reuse tenants (i + 1) fuel
    else Except.ok (namespace_candidate template i, true)

/-- `PodCluster.generate_namespace`: scan `range(1, len(namespaces))`. -/
def generate_namespace (namespaces : List String) (template : String)
    (reuse : Bool) (tenants : ℕ) : Except String (String × Bool) :=
  generate_namespace_go namespaces template reuse tenants 1 (namespaces.length - 1)

/-- One allocation together with its effect on the namespace list: a created
namespace is appended, the reuse special case leaves the list unchanged. -/
def allocate_namespace (namespaces : List String) (template : String)
    (reuse : Bool) (tenants : ℕ) : Except String (String × List String) :=
  match generate_namespace namespaces template reuse tenants with
  | Except.ok (name, true) => Except.ok (name, namespaces ++ [name])
  | Except.ok (name, false) => Except.ok (name, namespaces)
  | Except.error e => Except.error e

/-- `k` allocations serialized by the namespace-creation lock; returns the
returned names in order and the final namespace list. -/
def allocate_seq (template : String) (reuse : Bool) (tenants : ℕ) :
    List String → ℕ → Except String (List String × List String)
  | ns, 0 => Except.ok ([], ns)
  | ns, k + 1 =>
    match allocate_namespace ns template reuse tenants with
    | Except.ok (name, ns2) =>
      match allocate_seq template reuse tenants ns2 k with
      | Except.ok (names, ns3) => Except.ok (name :: names, ns3)
      | Except.error e => Except.error e
    | Except.error e => Except.error e

/-- A created namespace is the first absent candidate at or after the
starting index. -/
theorem generate_namespace_go_created :
    ∀ (fuel i : ℕ) (namespaces : List String) (template name : String)
      (reuse : Bool) (tenants : ℕ),
      generate_namespace_go namespaces template reuse tenants i fuel
        = Except.ok (name, true) →
      ∃ m : ℕ, i ≤ m ∧ name = namespace_candidate template m ∧
        namespace_candidate template m ∉ namespaces ∧
        ∀ j : ℕ, i ≤ j → j < m → namespace_candidate template j ∈ namespaces
  | 0, i, ns, template, name, reuse, tenants, h => by cases h
  | fuel + 1, i, ns, template, name, reuse, tenants, h => by
    rw [generate_namespace_go] at h
    split_ifs at h with h1 h2
    · cases h
    · obtain ⟨m, hm, hname, habs, hall⟩ :=
        generate_namespace_go_created fuel (i + 1) ns template name reuse tenants h
      refine ⟨m, by omega, hname, habs, ?_⟩
      intro j hj1 hj2
      by_cases hji : j = i
      · rw [hji]
        exact h1
      · exact hall j (by omega) hj2
    · cases h
      exact ⟨i, le_refl i, rfl, h1, fun j hj1 hj2 => absurd (lt_of_le_of_lt hj1 hj2)
        (lt_irrefl i)⟩

/-- With reuse-mode off, every successful scan created its name. -/
theorem generate_namespace_go_no_reuse :
    ∀ (fuel i : ℕ) (namespaces : List String) (template name : String)
      (tenants : ℕ) (b : Bool),
      generate_namespace_go namespaces template false tenants i fuel
        = Except.ok (name, b) →
      b = true ∧ name ∉ namespaces
  | 0, i, ns, template, name, tenants, b, h => by cases h
  | fuel + 1, i, ns, template, name, tenants, b, h => by
    rw [generate_namespace_go] at h
    split_ifs at h with h1 h2
    · rcases h2 with ⟨hf, _⟩
      cases hf
    · exact generate_namespace_go_no_reuse fuel (i + 1) ns template name tenants b h
    · cases h
      exact ⟨rfl, h1⟩

/-- With reuse-mode off, a successful allocation appends a fresh name. -/
theorem allocate_namespace_no_reuse (namespaces : List String)
    (template name : String) (tenants : ℕ) (ns2 : List String)
    (h : allocate_namespace namespaces template false tenants
      = Except.ok (name, ns2)) :
    name ∉ namespaces ∧ ns2 = namespaces ++ [name] := by
  unfold allocate_namespace at h
  rcases hg : generate_namespace namespaces template false tenants with e | p
  · rw [hg] at h
    cases h
  · obtain ⟨n, b⟩ := p
    have hb := generate_namespace_go_no_reuse (namespaces.length - 1) 1
      namespaces template n tenants b hg
    rw [hg, hb.1] at h
    cases h
    exact ⟨hb.2, rfl⟩

/-- Serialized reuse-off allocations return pairwise distinct fresh names,
one created namespace each, appended in order. -/
theorem allocate_seq_spec :
    ∀ (k : ℕ) (ns : List String) (template : String) (tenants : ℕ)
      (names ns3 : List String),
      allocate_seq template false tenants ns k = Except.ok (names, ns3) →
      names.Nodup ∧ names.length = k ∧ ns3 = ns ++ names ∧
        ∀ n ∈ names, n ∉ ns
  | 0, ns, template, tenants, names, ns3, h => by
    cases h
    exact ⟨List.nodup_nil, rfl, (List.append_nil ns).symm, fun n hn => absurd hn
      (List.not_mem_nil n)⟩
  | k + 1, ns, template, tenants, names, ns3, h => by
    rw [allocate_seq] at h
    split at h
    · rename_i name ns2 ha
      obtain ⟨hfresh, hns2⟩ := allocate_namespace_no_reuse ns template name tenants ns2 ha
      split at h
      · rename_i rest ns4 hs
        injection h with hpair
        injection hpair with h1 h2
        subst h1
        subst h2
        obtain ⟨hnd, hlen, happ, hfr⟩ := allocate_seq_spec k ns2 template tenants rest ns4 hs
        have hmemname : name ∈ ns2 := by
          rw [hns2]
          exact List.mem_append_right ns (List.mem_singleton_self name)
        refine ⟨List.nodup_cons.mpr ⟨?_, hnd⟩, by simp [hlen], ?_, ?_⟩
        · intro hcontra
          exact hfr name hcontra hmemname
        · rw [happ, hns2, List.append_assoc, List.singleton_append]
        · intro n hn
          rcases List.mem_cons.mp hn with hn1 | hn2
          · rw [hn1]
            exact hfresh
          · intro hns
            apply hfr n hn2
            rw [hns2]
            exact List.mem_append_left _ hns
      · rename_i e2 hs
        cases h
    · rename_i e ha
      cases h

/-- C8 (amended): a successful creating allocation returns the
lowest-numbered candidate (template, template-2, template-3, ...) absent
from the existing namespaces and creates exactly it; with at least two
existing namespaces, reuse-mode on a single-tenant deployment returns the
bare template name; and serialized allocations with the reuse special case
disengaged return pairwise distinct names, each appended to the namespace
list exactly once. -/
theorem C8_namespace_allocation :
    (∀ (ns : List String) (template name : String) (reuse : Bool) (tenants : ℕ),
      generate_namespace ns template reuse tenants = Except.ok (name, true) →
      ∃ i : ℕ, 1 ≤ i ∧ name = namespace_candidate template i ∧ name ∉ ns ∧
        ∀ j : ℕ, 1 ≤ j → j < i → namespace_candidate template j ∈ ns) ∧
    (∀ (ns : List String) (template : String) (tenants : ℕ),
      2 ≤ ns.length → tenants < 2 →
      ∃ created : Bool,
        generate_namespace ns template true tenants
          = Except.ok (template, created)) ∧
    (∀ (template : String) (tenants : ℕ) (ns : List String) (k : ℕ)
        (names ns3 : List String),
      allocate_seq template false tenants ns k = Except.ok (names, ns3) →
      names.Nodup ∧ names.length = k ∧ ns3 = ns ++ names ∧
        ∀ n ∈ names, n ∉ ns) := by
  refine ⟨?_, ?_, ?_⟩
  · intro ns template name reuse tenants h
    obtain ⟨m, hm, hname, habs, hall⟩ :=
      generate_namespace_go_created (ns.length - 1) 1 ns template name reuse tenants h
    refine ⟨m, hm, hname, ?_, hall⟩
    rw [hname]
    exact habs
  · intro ns template tenants hlen htenants
    obtain ⟨f, hf⟩ : ∃ f : ℕ, ns.length - 1 = f + 1 := ⟨ns.length - 2, by omega⟩
    unfold generate_namespace
    rw [hf, generate_namespace_go]
    by_cases hmem : namespace_candidate template 1 ∈ ns
    · rw [if_pos hmem, if_pos ⟨rfl, htenants⟩]
      exact ⟨false, rfl⟩
    · rw [if_neg hmem]
      exact ⟨true, rfl⟩
  · intro template tenants ns k names ns3 h
    exact allocate_seq_spec k ns template tenants names ns3 h

/-- C8 counterexample: with reuse-mode requested on a single-tenant
deployment, two allocations of the same template both return the bare
template name, so the claimed pairwise distinctness of concurrent
allocations fails as stated. -/
theorem C8_counterexample :
    allocate_seq "scylla" true 1 ["default", "scylla"] 2
      = Except.ok (["scylla", "scylla"], ["default", "scylla"]) ∧
    ¬(["scylla", "scylla"] : List String).Nodup := by
  constructor
  · rfl
  · decide

/-- C8 witness: on a cluster with two namespaces, a reuse-off allocation
creates the bare template (the lowest absent candidate); reuse-mode with a
single tenant returns the bare template; and two serialized reuse-off
allocations return the distinct names scylla and scylla-2. -/
theorem C8_witness :
    (generate_namespace ["default", "kube-system"] "scylla" false 1
        = Except.ok ("scylla", true) ∧
      ∃ i : ℕ, 1 ≤ i ∧ "scylla" = namespace_candidate "scylla" i ∧
        ("scylla" : String) ∉ ["default", "kube-system"] ∧
        ∀ j : ℕ, 1 ≤ j → j < i →
          namespace_candidate "scylla" j ∈ ["default", "kube-system"]) ∧
    (2 ≤ (["default", "scylla"] : List String).length ∧ 1 < 2 ∧
      ∃ created : Bool,
        generate_namespace ["default", "scylla"] "scylla" true 1
          = Except.ok ("scylla", created)) ∧
    (allocate_seq "scylla" false 1 ["default", "kube-system"] 2
        = Except.ok (["scylla", "scylla-2"],
            ["default", "kube-system", "scylla", "scylla-2"]) ∧
      (["scylla", "scylla-2"] : List String).Nodup ∧
      (["scylla", "scylla-2"] : List String).length = 2) := by
  have h1 : generate_namespace ["default", "kube-system"] "scylla" false 1
      = Except.ok ("scylla", true) := rfl
  have h3 : allocate_seq "scylla" false 1 ["default", "kube-system"] 2
      = Except.ok (["scylla", "scylla-2"],
          ["default", "kube-system", "scylla", "scylla-2"]) := rfl
  obtain ⟨hnd, hlen, _, _⟩ :=
    C8_namespace_allocation.2.2 "scylla" 1 ["default", "kube-system"] 2
      ["scylla", "scylla-2"] ["default", "kube-system", "scylla", "scylla-2"] h3
  exact ⟨⟨h1, C8_namespace_allocation.1 ["default", "kube-system"] "scylla" "scylla"
      false 1 h1⟩,
    ⟨by decide, by decide,
      C8_namespace_allocation.2.1 ["default", "scylla"] "scylla" 1 (by decide) (by decide)⟩,
    h3, hnd, hlen⟩
